import Mathlib

/-!
Shallow embedding of the WireChat server core (Go sources under
internal/core, internal/transport/http and the calls service package),
together with theorems settling the specification claims about it.

All definitions are translated directly from the Go source:
machine integers become `Int`, `time.Time` becomes an `Int` of Unix
seconds with `0` playing the role of the zero time, Go maps become
total functions into `Option`/`List`, channels become `List` FIFOs,
and fallible store/engine operations become `Option`/`Except` values.
-/

namespace WireChat

/-! ## Calls service model (package calls, Service methods)

Translated from the calls service: `Service.GetJoinInfo`, `Service.EndCall`,
`Service.RejectCall`, `Service.LeaveCall`, `Service.CreateDirectCall`.
Store rows become in-memory maps; `UpdateCall`/`UpdateParticipant`/
`AddParticipant` are modelled as always-succeeding row writes (the Go code
ignores their errors at the call sites marked best-effort, and an update
failure elsewhere leaves the row unchanged, which only makes the
transition the identity). -/

/-- Call status as persisted in the `calls` table (store.CallStatus). -/
inductive CallStatus
  | ringing
  | active
  | ended
  | failed
deriving DecidableEq, Repr

/-- Call type: direct or room (store.CallType). -/
inductive CallKind
  | direct
  | room
deriving DecidableEq, Repr

/-- A persisted call row (store.Call); timestamps are Unix seconds. -/
structure Call where
  ctype : CallKind
  initiatorUserID : Int
  roomID : Option Int
  status : CallStatus
  createdAt : Int
  updatedAt : Int
  endedAt : Option Int
deriving DecidableEq, Repr

/-- A persisted call participant row (store.CallParticipant). -/
structure CallParticipant where
  joinedAt : Option Int
  leftAt : Option Int
  reason : Option String
deriving DecidableEq, Repr

/-- Join credentials minted by the call engine (callengine.JoinInfo). -/
structure EngineJoinInfo where
  url : String
  token : String
  roomName : String
  identity : String
deriving DecidableEq, Repr

/-- Errors returned by the calls service (the errors declared in the
calls package). -/
inductive CallErr
  | liveKitNotEnabled
  | callNotFound
  | callEnded
  | notParticipant
  | getUserFailed
  | userNotFound
  | callsNotAllowed
  | cannotCallSelf
deriving DecidableEq, Repr

/-- The persistence state seen by the calls service: call rows, participant
rows (`parts` for row lookup, `partUsers` for `ListParticipants` order),
room membership, users, friendship and call-privacy data, plus the engine
flag and the abstract credential minting function of the engine adapter. -/
structure CallStore where
  calls : String → Option Call
  parts : String → Int → Option CallParticipant
  partUsers : String → List Int
  members : Int → Int → Bool
  users : Int → Option String
  friendsOnly : Int → Bool
  friendAccepted : Int → Int → Bool
  engineEnabled : Bool
  engineInfo : String → Int → String → EngineJoinInfo

/-- Write one call row (store.UpdateCall / store.CreateCall). -/
def setCall (st : CallStore) (cid : String) (c : Call) : CallStore :=
  { st with calls := fun x => if x = cid then some c else st.calls x }

/-- Write one participant row (store.UpdateParticipant). -/
def setPart (st : CallStore) (cid : String) (uid : Int) (p : CallParticipant) :
    CallStore :=
  { st with parts := fun x u => if x = cid ∧ u = uid then some p else st.parts x u }

/-- Insert a participant row (store.AddParticipant). -/
def addPart (st : CallStore) (cid : String) (uid : Int) (p : CallParticipant) :
    CallStore :=
  { setPart st cid uid p with
      partUsers := fun x => if x = cid then st.partUsers x ++ [uid] else st.partUsers x }

/-- Service.GetJoinInfo: reject ended calls, late-add room members as
participants, stamp `joined_at` when unset, move `ringing` to `active`,
then mint credentials. Store mutations happen before the user lookup,
exactly as in the source. -/
def getJoinInfo (st : CallStore) (callID : String) (userID : Int) (now : Int) :
    CallStore × Except CallErr EngineJoinInfo :=
  if ¬ st.engineEnabled then (st, .error .liveKitNotEnabled)
  else
    match st.calls callID with
    | none => (st, .error .callNotFound)
    | some call =>
      if call.status = .ended ∨ call.status = .failed then (st, .error .callEnded)
      else
        let resolved : Option (CallStore × CallParticipant) :=
          match st.parts callID userID with
          | some p => some (st, p)
          | none =>
            match call.ctype, call.roomID with
            | .room, some rid =>
              if st.members userID rid then
                let p : CallParticipant := ⟨none, none, none⟩
                some (addPart st callID userID p, p)
              else none
            | _, _ => none
        match resolved with
        | none => (st, .error .notParticipant)
        | some (st1, p) =>
          let st2 :=
            if p.joinedAt = none then
              setPart st1 callID userID { p with joinedAt := some now }
            else st1
          let st3 :=
            if call.status = .ringing then
              setCall st2 callID { call with status := .active, updatedAt := now }
            else st2
          let out : Except CallErr EngineJoinInfo :=
            match st3.users userID with
            | none => .error .getUserFailed
            | some uname => .ok (st3.engineInfo callID userID uname)
          (st3, out)

/-- Service.EndCall: idempotent on ended/failed, requires participant or
initiator, stamps `ended_at` and sets `status = ended`. -/
def endCall (st : CallStore) (callID : String) (byUserID : Int) (now : Int) :
    CallStore × Except CallErr Unit :=
  match st.calls callID with
  | none => (st, .error .callNotFound)
  | some call =>
    if call.status = .ended ∨ call.status = .failed then (st, .ok ())
    else if st.parts callID byUserID = none ∧ call.initiatorUserID ≠ byUserID then
      (st, .error .notParticipant)
    else
      (setCall st callID { call with status := .ended, endedAt := some now, updatedAt := now },
       .ok ())

/-- Service.RejectCall: only from `ringing`; stamps the call ended and the
rejecting participant's `left_at` and `reason`. -/
def rejectCall (st : CallStore) (callID : String) (byUserID : Int) (reason : String)
    (now : Int) : CallStore × Except CallErr Unit :=
  match st.calls callID with
  | none => (st, .error .callNotFound)
  | some call =>
    if call.status ≠ .ringing then (st, .error .callEnded)
    else
      match st.parts callID byUserID with
      | none => (st, .error .notParticipant)
      | some p =>
        let st1 := setCall st callID
          { call with status := .ended, endedAt := some now, updatedAt := now }
        let p1 := { p with leftAt := some now,
                           reason := if reason ≠ "" then some reason else p.reason }
        (setPart st1 callID byUserID p1, .ok ())

/-- Service.LeaveCall: stamp the participant as left; when every
participant has left, end the call unless its status is already `ended`. -/
def leaveCall (st : CallStore) (callID : String) (userID : Int) (now : Int) :
    CallStore × Except CallErr Unit :=
  match st.parts callID userID with
  | none => (st, .error .notParticipant)
  | some p =>
    let p1 := { p with leftAt := some now, reason := some "left" }
    let st1 := setPart st callID userID p1
    let allLeft := (st1.partUsers callID).all fun u =>
      match st1.parts callID u with
      | some q => q.leftAt.isSome
      | none => true
    if allLeft then
      match st1.calls callID with
      | some call =>
        if call.status ≠ .ended then
          (setCall st1 callID
            { call with status := .ended, endedAt := some now, updatedAt := now }, .ok ())
        else (st1, .ok ())
      | none => (st1, .ok ())
    else (st1, .ok ())

/-- Service.CreateDirectCall: reject self-calls, unknown targets, and
`friends_only` targets who are not accepted friends; then persist a
`ringing` call with both users as participants. The generated UUID and
external room id are passed in as parameters. -/
def createDirectCall (st : CallStore) (fromUserID toUserID : Int) (callID : String)
    (now : Int) : CallStore × Except CallErr Call :=
  if ¬ st.engineEnabled then (st, .error .liveKitNotEnabled)
  else if fromUserID = toUserID then (st, .error .cannotCallSelf)
  else
    match st.users toUserID with
    | none => (st, .error .userNotFound)
    | some _ =>
      if st.friendsOnly toUserID ∧ ¬ st.friendAccepted fromUserID toUserID then
        (st, .error .callsNotAllowed)
      else
        let call : Call :=
          { ctype := .direct, initiatorUserID := fromUserID, roomID := none,
            status := .ringing, createdAt := now, updatedAt := now, endedAt := none }
        let st1 := setCall st callID call
        let st2 := addPart st1 callID fromUserID ⟨none, none, none⟩
        let st3 := addPart st2 callID toUserID ⟨none, none, none⟩
        (st3, .ok call)

/-- One calls-service operation applied to a fixed call id, as in claim C7. -/
inductive CallOp
  | joinInfo (userID : Int) (now : Int)
  | reject (userID : Int) (reason : String) (now : Int)
  | leave (userID : Int) (now : Int)
  | endc (userID : Int) (now : Int)

/-- Apply one operation, keeping only the resulting store. -/
def applyCallOp (callID : String) (st : CallStore) : CallOp → CallStore
  | .joinInfo u n => (getJoinInfo st callID u n).1
  | .reject u r n => (rejectCall st callID u r n).1
  | .leave u n => (leaveCall st callID u n).1
  | .endc u n => (endCall st callID u n).1

/-- Apply a sequence of operations to one call record. -/
def applyCallOps (callID : String) (st : CallStore) (ops : List CallOp) : CallStore :=
  ops.foldl (applyCallOp callID) st

/-- Forward progress rank of a call status: terminal states rank highest. -/
def statusRank : CallStatus → Nat
  | .ringing => 0
  | .active => 1
  | .ended => 2
  | .failed => 2

theorem setCall_calls_same (st : CallStore) (cid : String) (c : Call) :
    (setCall st cid c).calls cid = some c := by
  simp [setCall]

theorem setPart_calls (st : CallStore) (cid : String) (uid : Int) (p : CallParticipant) :
    (setPart st cid uid p).calls = st.calls := rfl

theorem addPart_calls (st : CallStore) (cid : String) (uid : Int) (p : CallParticipant) :
    (addPart st cid uid p).calls = st.calls := rfl

/-- GetJoinInfo either leaves the call row alone or moves a ringing call to
active. -/
theorem getJoinInfo_calls (st : CallStore) (callID : String) (u n : Int) :
    (getJoinInfo st callID u n).1.calls callID = st.calls callID ∨
    ∃ call, st.calls callID = some call ∧ call.status = .ringing ∧
      (getJoinInfo st callID u n).1.calls callID =
        some { call with status := .active, updatedAt := n } := by
  by_cases heng : st.engineEnabled
  · cases hc : st.calls callID with
    | none => left; unfold getJoinInfo; simp [heng, hc]
    | some call =>
      by_cases hterm : call.status = .ended ∨ call.status = .failed
      · left; unfold getJoinInfo; simp [heng, hc, hterm]
      · cases hp : st.parts callID u with
        | some p =>
          by_cases hring : call.status = .ringing
          · right
            refine ⟨call, rfl, hring, ?_⟩
            unfold getJoinInfo
            by_cases hj : p.joinedAt = none <;>
              simp [heng, hc, hterm, hp, hj, hring, setCall, setPart]
          · left
            unfold getJoinInfo
            by_cases hj : p.joinedAt = none <;>
              simp [heng, hc, hterm, hp, hj, hring, setCall, setPart]
        | none =>
          cases hk : call.ctype with
          | direct => left; unfold getJoinInfo; simp [heng, hc, hterm, hp, hk]
          | room =>
            cases hrid : call.roomID with
            | none => left; unfold getJoinInfo; simp [heng, hc, hterm, hp, hk, hrid]
            | some rid =>
              by_cases hm : st.members u rid
              · by_cases hring : call.status = .ringing
                · right
                  refine ⟨call, rfl, hring, ?_⟩
                  unfold getJoinInfo
                  simp [heng, hc, hterm, hp, hk, hrid, hm, hring, setCall, setPart,
                    addPart]
                · left
                  unfold getJoinInfo
                  simp [heng, hc, hterm, hp, hk, hrid, hm, hring, setCall, setPart,
                    addPart]
              · left
                unfold getJoinInfo
                simp [heng, hc, hterm, hp, hk, hrid, hm]
  · left; unfold getJoinInfo; simp [heng]

/-- EndCall either leaves the call row alone or stamps it ended. -/
theorem endCall_calls (st : CallStore) (callID : String) (u n : Int) :
    (endCall st callID u n).1.calls callID = st.calls callID ∨
    ∃ call, st.calls callID = some call ∧
      (endCall st callID u n).1.calls callID =
        some { call with status := .ended, endedAt := some n, updatedAt := n } := by
  cases hc : st.calls callID with
  | none => left; unfold endCall; simp [hc]
  | some call =>
    by_cases hterm : call.status = .ended ∨ call.status = .failed
    · left; unfold endCall; simp [hc, hterm]
    · by_cases hpart : st.parts callID u = none ∧ call.initiatorUserID ≠ u
      · left; unfold endCall; simp [hc, hterm, hpart]
      · right
        refine ⟨call, rfl, ?_⟩
        unfold endCall
        simp [hc, hterm, hpart, setCall]

/-- RejectCall either leaves the call row alone or stamps it ended. -/
theorem rejectCall_calls (st : CallStore) (callID : String) (u : Int) (r : String)
    (n : Int) :
    (rejectCall st callID u r n).1.calls callID = st.calls callID ∨
    ∃ call, st.calls callID = some call ∧
      (rejectCall st callID u r n).1.calls callID =
        some { call with status := .ended, endedAt := some n, updatedAt := n } := by
  cases hc : st.calls callID with
  | none => left; unfold rejectCall; simp [hc]
  | some call =>
    by_cases hring : call.status = .ringing
    · cases hp : st.parts callID u with
      | none => left; unfold rejectCall; simp [hc, hring, hp]
      | some p =>
        right
        refine ⟨call, rfl, ?_⟩
        unfold rejectCall
        simp [hc, hring, hp, setCall, setPart]
    · left; unfold rejectCall; simp [hc, hring]

/-- LeaveCall either leaves the call row alone or stamps it ended. -/
theorem leaveCall_calls (st : CallStore) (callID : String) (u n : Int) :
    (leaveCall st callID u n).1.calls callID = st.calls callID ∨
    ∃ call, st.calls callID = some call ∧
      (leaveCall st callID u n).1.calls callID =
        some { call with status := .ended, endedAt := some n, updatedAt := n } := by
  cases hp : st.parts callID u with
  | none => left; unfold leaveCall; simp [hp]
  | some p =>
    have hcalls :
        (setPart st callID u { p with leftAt := some n, reason := some "left" }).calls
          = st.calls := rfl
    by_cases hall : ((setPart st callID u
        { p with leftAt := some n, reason := some "left" }).partUsers callID).all
        (fun v =>
          match (setPart st callID u
              { p with leftAt := some n, reason := some "left" }).parts callID v with
          | some q => q.leftAt.isSome
          | none => true) = true
    · cases hc : st.calls callID with
      | none =>
        left; unfold leaveCall
        simp only [hp, hall, if_true]
        rw [hcalls, hc]
        exact hc
      | some call =>
        by_cases hend : call.status = .ended
        · left
          unfold leaveCall
          simp only [hp, hall, if_true, hcalls, hc, hend]
          simp only [ne_eq, not_true_eq_false, if_false, ite_self]
          exact hc
        · right
          refine ⟨call, rfl, ?_⟩
          unfold leaveCall
          simp only [hp, hall, if_true, hcalls, hc]
          simp [hend, setCall]
    · left
      unfold leaveCall
      simp only [hp]
      rw [if_neg hall]
      rfl

/-- One operation never decreases the status rank, never reaches `failed`
from a non-`failed` status, and never leaves `ended`. -/
theorem applyCallOp_status_step (callID : String) (st : CallStore) (op : CallOp)
    (call : Call) (hc : st.calls callID = some call) (hnf : call.status ≠ .failed) :
    ∃ call1, (applyCallOp callID st op).calls callID = some call1 ∧
      statusRank call.status ≤ statusRank call1.status ∧
      call1.status ≠ .failed ∧
      (call.status = .ended → call1.status = .ended) := by
  have key :
      (applyCallOp callID st op).calls callID = st.calls callID ∨
      (∃ c0 n0, st.calls callID = some c0 ∧ c0.status = .ringing ∧
        (applyCallOp callID st op).calls callID =
          some { c0 with status := .active, updatedAt := n0 }) ∨
      (∃ c0 n0, st.calls callID = some c0 ∧
        (applyCallOp callID st op).calls callID =
          some { c0 with status := .ended, endedAt := some n0, updatedAt := n0 }) := by
    cases op with
    | joinInfo u n =>
      rcases getJoinInfo_calls st callID u n with h | ⟨c0, h1, h2, h3⟩
      · exact Or.inl h
      · exact Or.inr (Or.inl ⟨c0, n, h1, h2, h3⟩)
    | reject u r n =>
      rcases rejectCall_calls st callID u r n with h | ⟨c0, h1, h2⟩
      · exact Or.inl h
      · exact Or.inr (Or.inr ⟨c0, n, h1, h2⟩)
    | leave u n =>
      rcases leaveCall_calls st callID u n with h | ⟨c0, h1, h2⟩
      · exact Or.inl h
      · exact Or.inr (Or.inr ⟨c0, n, h1, h2⟩)
    | endc u n =>
      rcases endCall_calls st callID u n with h | ⟨c0, h1, h2⟩
      · exact Or.inl h
      · exact Or.inr (Or.inr ⟨c0, n, h1, h2⟩)
  rcases key with h | ⟨c0, n1, h1, h2, h3⟩ | ⟨c0, n0, h1, h2⟩
  · exact ⟨call, h ▸ hc, le_refl _, hnf, fun hh => hh⟩
  · rw [hc] at h1
    cases h1
    refine ⟨_, h3, ?_, by simp, ?_⟩
    · simp [h2, statusRank]
    · intro hh; rw [hh] at h2; cases h2
  · rw [hc] at h1
    cases h1
    refine ⟨_, h2, ?_, by simp, fun _ => rfl⟩
    cases hs : call.status <;> simp [statusRank]

/-- A call successfully created by Service.CreateDirectCall starts in the
`ringing` status, so the non-`failed` hypothesis of the monotonicity
theorem holds for every call record the service produces. -/
theorem createDirectCall_ringing (st : CallStore) (a b : Int) (cid : String) (n : Int)
    (call : Call) (h : (createDirectCall st a b cid n).2 = .ok call) :
    call.status = .ringing := by
  unfold createDirectCall at h
  split at h
  · simp at h
  · split at h
    · simp at h
    · split at h
      · simp at h
      · split at h
        · simp at h
        · simp only [] at h
          simp at h
          rw [← h]

/-- EndCall on a call whose row is already `ended` is a pure no-op that
reports success. -/
theorem endCall_on_ended (st : CallStore) (callID : String) (u n : Int) (call : Call)
    (hc : st.calls callID = some call) (hend : call.status = .ended) :
    endCall st callID u n = (st, .ok ()) := by
  unfold endCall
  simp [hc, hend]

/-- C7 — For every sequence of calls-service operations (GetJoinInfo,
RejectCall, LeaveCall, EndCall) applied to one call record whose status is
not `failed` (every call the service creates starts at `ringing`, and no
code path ever writes `failed`), the status only progresses forward along
ringing → active → ended: the rank never decreases (so no operation moves
a call from `active` back to `ringing`), `failed` is never entered, and a
call that reached `ended` stays `ended`. -/
theorem callStatusMonotone (callID : String) (st : CallStore) (ops : List CallOp)
    (call : Call) (hc : st.calls callID = some call) (hnf : call.status ≠ .failed) :
    ∃ call1, (applyCallOps callID st ops).calls callID = some call1 ∧
      statusRank call.status ≤ statusRank call1.status ∧
      call1.status ≠ .failed ∧
      (call.status = .ended → call1.status = .ended) := by
  induction ops generalizing st call with
  | nil => exact ⟨call, hc, le_refl _, hnf, fun h => h⟩
  | cons op rest ih =>
    obtain ⟨c1, hc1, hle1, hnf1, hend1⟩ := applyCallOp_status_step callID st op call hc hnf
    obtain ⟨c2, hc2, hle2, hnf2, hend2⟩ := ih (applyCallOp callID st op) c1 hc1 hnf1
    refine ⟨c2, hc2, le_trans hle1 hle2, hnf2, fun h => hend2 (hend1 h)⟩

/-- A concrete calls-store with one ringing direct call between users 1
and 2, used to instantiate the call-service theorems. -/
def ringingStore : CallStore where
  calls := fun s =>
    if s = "c1" then
      some { ctype := .direct, initiatorUserID := 1, roomID := none,
             status := .ringing, createdAt := 0, updatedAt := 0, endedAt := none }
    else none
  parts := fun s u =>
    if s = "c1" ∧ (u = 1 ∨ u = 2) then some ⟨none, none, none⟩ else none
  partUsers := fun s => if s = "c1" then [1, 2] else []
  members := fun _ _ => false
  users := fun u => if u = 1 then some "alice" else if u = 2 then some "bob" else none
  friendsOnly := fun _ => false
  friendAccepted := fun _ _ => false
  engineEnabled := true
  engineInfo := fun _ _ _ => ⟨"", "", "", ""⟩

/-- Witness for C7: the monotonicity theorem applied to a concrete accept
followed by a hangup on the ringing call of `ringingStore`. -/
theorem callStatusMonotone_witness :
    ∃ call1,
      (applyCallOps "c1" ringingStore [.joinInfo 2 10, .endc 1 20]).calls "c1" =
        some call1 ∧
      statusRank .ringing ≤ statusRank call1.status ∧
      call1.status ≠ .failed ∧
      (CallStatus.ringing = .ended → call1.status = .ended) :=
  callStatusMonotone "c1" ringingStore [.joinInfo 2 10, .endc 1 20]
    { ctype := .direct, initiatorUserID := 1, roomID := none, status := .ringing,
      createdAt := 0, updatedAt := 0, endedAt := none }
    (by decide) (by decide)

/-- C8 — EndCall is idempotent: a first successful EndCall by a participant
or the initiator stamps the row `ended` with `ended_at = now`, and every
subsequent EndCall on that call (by any user, at any time) returns success
while leaving the whole store — in particular `ended_at` and `updated_at` —
unchanged. -/
theorem endCallIdempotent (st : CallStore) (callID : String) (uid now : Int)
    (call : Call) (hc : st.calls callID = some call)
    (hne : call.status ≠ .ended) (hnf : call.status ≠ .failed)
    (hpart : st.parts callID uid ≠ none ∨ call.initiatorUserID = uid) :
    (endCall st callID uid now).2 = .ok () ∧
    (endCall st callID uid now).1.calls callID =
      some { call with status := .ended, endedAt := some now, updatedAt := now } ∧
    ∀ uid2 now2,
      endCall (endCall st callID uid now).1 callID uid2 now2 =
        ((endCall st callID uid now).1, .ok ()) := by
  have hterm : ¬ (call.status = .ended ∨ call.status = .failed) := by
    rintro (h | h)
    · exact hne h
    · exact hnf h
  have hpart2 : ¬ (st.parts callID uid = none ∧ call.initiatorUserID ≠ uid) := by
    rintro ⟨h1, h2⟩
    rcases hpart with h | h
    · exact h h1
    · exact h2 h
  have hE : (endCall st callID uid now).1.calls callID =
      some { call with status := .ended, endedAt := some now, updatedAt := now } := by
    unfold endCall
    simp [hc, hterm, hpart2, setCall]
  refine ⟨?_, hE, ?_⟩
  · unfold endCall
    simp [hc, hterm, hpart2]
  · intro uid2 now2
    exact endCall_on_ended _ _ _ _ _ hE rfl

/-- Witness for C8: the idempotence theorem applied to user 1 ending the
ringing call of `ringingStore` at time 7. -/
theorem endCallIdempotent_witness :
    (endCall ringingStore "c1" 1 7).2 = .ok () ∧
    (endCall ringingStore "c1" 1 7).1.calls "c1" =
      some { ctype := .direct, initiatorUserID := 1, roomID := none,
             status := .ended, createdAt := 0, updatedAt := 7, endedAt := some 7 } ∧
    ∀ uid2 now2,
      endCall (endCall ringingStore "c1" 1 7).1 "c1" uid2 now2 =
        ((endCall ringingStore "c1" 1 7).1, .ok ()) :=
  endCallIdempotent ringingStore "c1" 1 7
    { ctype := .direct, initiatorUserID := 1, roomID := none, status := .ringing,
      createdAt := 0, updatedAt := 0, endedAt := none }
    (by decide) (by decide) (by decide) (by decide)

/-! ## Reader-loop join gate (WSHandler.readLoop, join-command region)

The region of `readLoop` that runs after a join command has been decoded
and has passed the rate limiter: it consults the persistence gateway and
either forwards the command to the client's command inbox or emits a
single error frame. Store reads are modelled as total (the spec treats
single-row reads as atomic store operations; the source surfaces a read
failure of the membership check as `internal_error` and never forwards). -/

/-- A persisted room row as seen by the reader loop (store.Room); room
types are the literal strings of store.RoomType. -/
structure StoreRoom where
  id : Int
  rtype : String
deriving DecidableEq, Repr

/-- The persistence view the join gate consults: room lookup by name and
recorded membership (store.GetRoomByName / store.IsMember). -/
structure GateStore where
  getRoomByName : String → Option StoreRoom
  isMember : Int → Int → Bool

/-- What the reader loop does with one join command. -/
inductive JoinOutcome
  | forwarded
  | errSent (code : String)
deriving DecidableEq, Repr

/-- WSHandler.readLoop join gate: absent room → `room_not_found`; public →
forward; private/direct → forward iff the user is a recorded member, else
`access_denied`; any other room type → `access_denied`. -/
def processJoin (st : GateStore) (userID : Int) (room : String) : JoinOutcome :=
  match st.getRoomByName room with
  | none => .errSent "room_not_found"
  | some r =>
    if r.rtype = "public" then .forwarded
    else if r.rtype = "private" ∨ r.rtype = "direct" then
      if st.isMember userID r.id then .forwarded else .errSent "access_denied"
    else .errSent "access_denied"

/-- C5 — For every join command that passes decoding and rate limiting,
the reader loop consults the store before forwarding: a missing room
yields `room_not_found`; a public room is forwarded; a private or direct
room is forwarded iff the authenticated user is a recorded member and
otherwise yields `access_denied`; any other room type yields
`access_denied`; and the join reaches the Hub (is forwarded) exactly in
the allow cases. -/
theorem joinGateCharacterization (st : GateStore) (uid : Int) (room : String) :
    (processJoin st uid room = .forwarded ↔
      ∃ r, st.getRoomByName room = some r ∧
        (r.rtype = "public" ∨
          ((r.rtype = "private" ∨ r.rtype = "direct") ∧ st.isMember uid r.id))) ∧
    (st.getRoomByName room = none →
      processJoin st uid room = .errSent "room_not_found") ∧
    (∀ r, st.getRoomByName room = some r →
      (r.rtype = "private" ∨ r.rtype = "direct") → ¬ st.isMember uid r.id →
      processJoin st uid room = .errSent "access_denied") ∧
    (∀ r, st.getRoomByName room = some r →
      r.rtype ≠ "public" → r.rtype ≠ "private" → r.rtype ≠ "direct" →
      processJoin st uid room = .errSent "access_denied") := by
  cases hr : st.getRoomByName room with
  | none =>
    refine ⟨?_, ?_, ?_, ?_⟩
    · unfold processJoin
      rw [hr]
      simp
    · intro _
      unfold processJoin
      rw [hr]
    · intro r h
      cases h
    · intro r h
      cases h
  | some r =>
    refine ⟨?_, ?_, ?_, ?_⟩
    · unfold processJoin
      rw [hr]
      by_cases hpub : r.rtype = "public"
      · simp only [if_pos hpub]
        constructor
        · intro _
          exact ⟨r, rfl, Or.inl hpub⟩
        · intro _
          trivial
      · by_cases hpd : r.rtype = "private" ∨ r.rtype = "direct"
        · by_cases hm : st.isMember uid r.id
          · simp only [if_neg hpub, if_pos hpd, if_pos hm]
            constructor
            · intro _
              exact ⟨r, rfl, Or.inr ⟨hpd, hm⟩⟩
            · intro _
              trivial
          · simp only [if_neg hpub, if_pos hpd, if_neg hm]
            constructor
            · intro h
              cases h
            · rintro ⟨r2, hr2, hcase⟩
              cases hr2
              rcases hcase with h | ⟨_, h⟩
              · exact absurd h hpub
              · exact absurd h hm
        · simp only [if_neg hpub, if_neg hpd]
          constructor
          · intro h
            cases h
          · rintro ⟨r2, hr2, hcase⟩
            cases hr2
            rcases hcase with h | ⟨h, _⟩
            · exact absurd h hpub
            · exact absurd h hpd
    · intro h
      cases h
    · intro r2 hr2 hpd hm
      cases hr2
      unfold processJoin
      rw [hr]
      have hpub : r.rtype ≠ "public" := by
        rcases hpd with h | h <;> simp [h]
      simp only [if_neg hpub, if_pos hpd, if_neg hm]
    · intro r2 hr2 h1 h2 h3
      cases hr2
      unfold processJoin
      rw [hr]
      simp only [if_neg h1,
        if_neg (show ¬(r.rtype = "private" ∨ r.rtype = "direct") by
          rintro (h | h)
          exacts [h2 h, h3 h])]

/-- A concrete join-gate store: "lobby" is a public room, "secret" is a
private room with no recorded members. -/
def gateStoreW : GateStore where
  getRoomByName := fun n =>
    if n = "secret" then some ⟨2, "private"⟩
    else if n = "lobby" then some ⟨1, "public"⟩
    else none
  isMember := fun _ _ => false

/-- Witness for C5: a non-member joining the private room "secret" is
denied with `access_denied`. -/
theorem joinGateCharacterization_witness :
    processJoin gateStoreW 7 "secret" = .errSent "access_denied" :=
  (joinGateCharacterization gateStoreW 7 "secret").2.2.1 ⟨2, "private"⟩
    (by decide) (Or.inl rfl) (by decide)

/-! ## Handshake (WSHandler.handleHello) -/

/-- The mutable identity fields of a session (core.Client.UserID, Name,
IsGuest). -/
structure Ident where
  userId : Int
  name : String
  isGuest : Bool
deriving DecidableEq, Repr

/-- Handshake configuration: whether a JWT is required, plus the token
validator (auth.Service.ValidateToken) returning claims on success. -/
structure HelloConfig where
  jwtRequired : Bool
  validate : String → Option Ident

/-- The hello payload (proto.HelloData); `protocol = 0` and `token = ""`
stand for absent fields, as in the Go zero values. -/
structure HelloData where
  user : String
  token : String
  protocol : Int
deriving DecidableEq, Repr

/-- Protocol-level error codes emitted by the handshake. -/
inductive ProtoErrCode
  | unsupportedVersion
  | unauthorized
deriving DecidableEq, Repr

/-- WSHandler.handleHello: protocol-version check, token validation with
fall-through to guest mode when a JWT is not required, guest-name
synthesis from the session id. The guest branch writes `Name` and
`IsGuest` but never writes `UserID`. -/
def handleHello (cfg : HelloConfig) (sessionID : String) (client : Ident)
    (hello : HelloData) : Ident × Option ProtoErrCode :=
  let guest : Ident × Option ProtoErrCode :=
    ({ client with
        name := if hello.user ≠ "" then hello.user else "guest-" ++ sessionID.take 8,
        isGuest := true }, none)
  if hello.protocol ≠ 0 ∧ hello.protocol ≠ 1 then
    (client, some .unsupportedVersion)
  else if hello.token ≠ "" then
    match cfg.validate hello.token with
    | none => if cfg.jwtRequired then (client, some .unauthorized) else guest
    | some claims => (⟨claims.userId, claims.name, claims.isGuest⟩, none)
  else if cfg.jwtRequired then (client, some .unauthorized)
  else guest

/-- A handshake configuration with no JWT requirement and a validator that
rejects every token. -/
def freeCfg : HelloConfig where
  jwtRequired := false
  validate := fun _ => none

/-- Counterexample to C9: a session already authenticated as user 7 sends
a token-free hello and resolves to guest mode; the hello succeeds but the
session keeps `user_id = 7` instead of the `user_id = 0` the claim
requires, so a guest hello does not fully overwrite the identity. -/
theorem helloGuestKeepsUserID :
    (handleHello freeCfg "abcdef1234" ⟨7, "alice", false⟩ ⟨"bob", "", 0⟩).2 = none ∧
    (handleHello freeCfg "abcdef1234" ⟨7, "alice", false⟩ ⟨"bob", "", 0⟩).1 =
      ⟨7, "bob", true⟩ ∧
    (7 : Int) ≠ 0 := by
  refine ⟨?_, ?_, by decide⟩ <;> rfl

/-- C9 amended — A hello that resolves to guest mode (protocol accepted,
JWT not required, and the token either absent or failing validation) sets
the username to `hello.user` when non-empty and otherwise to `"guest-"`
followed by the first 8 characters of the session id, sets `is_guest` to
true, and leaves `user_id` unchanged — `0` on a session that never
authenticated, the prior value on a repeated hello. A successful
token-carrying hello overwrites all three identity fields from the
claims. -/
theorem helloIdentityResolution (cfg : HelloConfig) (sid : String) (client : Ident)
    (hello : HelloData) (hproto : hello.protocol = 0 ∨ hello.protocol = 1) :
    (cfg.jwtRequired = false → (hello.token ≠ "" → cfg.validate hello.token = none) →
      handleHello cfg sid client hello =
        ({ client with
            name := if hello.user ≠ "" then hello.user else "guest-" ++ sid.take 8,
            isGuest := true }, none)) ∧
    (∀ claims, hello.token ≠ "" → cfg.validate hello.token = some claims →
      handleHello cfg sid client hello =
        (⟨claims.userId, claims.name, claims.isGuest⟩, none)) := by
  have hp : ¬ (hello.protocol ≠ 0 ∧ hello.protocol ≠ 1) := by
    rcases hproto with h | h <;> simp [h]
  constructor
  · intro hreq htok
    unfold handleHello
    rw [if_neg hp]
    by_cases ht : hello.token = ""
    · rw [if_neg (by simp [ht]), if_neg (by simp [hreq])]
    · rw [if_pos ht, htok ht]
      simp [hreq]
  · intro claims htok hval
    unfold handleHello
    rw [if_neg hp, if_pos htok, hval]

/-- Witness for C9's amended theorem: a fresh session (user_id 0) resolves
to guest mode with a synthesized name, keeping user_id 0. -/
theorem helloIdentityResolution_witness :
    handleHello freeCfg "0123456789ab" ⟨0, "", false⟩ ⟨"", "", 1⟩ =
      (⟨0, "guest-01234567", true⟩, none) := by
  have h := (helloIdentityResolution freeCfg "0123456789ab" ⟨0, "", false⟩ ⟨"", "", 1⟩
    (Or.inr rfl)).1 rfl (fun hne => rfl)
  simpa using h

/-! ## Hub model (internal/core: hub.go, room.go, client.go)

Clients are identified by a `Nat` id (distinct `*core.Client` pointers);
their identity fields — fixed after the handshake, before the Hub reads
them — are given by an environment `info : Nat → Ident`. Go maps become
total functions (`rooms : String → Option (List Nat)` is the room map
holding each room's member set, deleting a key stores `none`); channels
become lists, with the outbox capacity of 8 from `core.NewClient`.

Every delivery is recorded in a trace of `SendAction`s tagging whether the
source used a plain channel send (`client.Events <- e`, which blocks the
Hub loop while the outbox is full) or a `select`-with-`default` send
(which drops the event when the outbox is full). -/

/-- A chat message (core.Message); `createdAt = 0` is the Go zero time. -/
structure Msg where
  id : Int
  room : String
  fromUser : String
  text : String
  createdAt : Int
deriving DecidableEq, Repr

/-- An event delivered to a session's outbox (core.Event): one
constructor per core.EventKind used by hub.go, carrying the fields the
handlers set. -/
inductive Event
  | userJoined (room user : String)
  | userLeft (room user : String)
  | roomMessage (room : String) (msg : Msg)
  | history (room : String) (msgs : List Msg)
  | errorEvent (code msg room : String)
  | callIncoming (callID ctype : String) (fromUserID : Int) (fromUsername : String)
      (roomID : Int) (roomName : String) (createdAt : Int)
  | callRinging (callID : String) (toUserID : Int) (toUsername : String)
  | callAccepted (callID : String) (fromUserID : Int) (fromUsername : String)
  | callRejected (callID : String) (fromUserID : Int) (reason : String)
  | callJoinInfo (callID : String) (info : EngineJoinInfo)
  | callEnded (callID : String) (fromUserID : Int) (reason : String)
deriving DecidableEq, Repr

/-- The Hub's mutable state (coreHub): session set, room map with member
sets, each session's joined-room set, the user_id → session index, and
each session's event outbox with its closed flag. -/
structure HubState where
  clients : List Nat
  rooms : String → Option (List Nat)
  clientRooms : Nat → List String
  userIndex : Int → Option Nat
  outbox : Nat → List Event
  outboxClosed : Nat → Bool

/-- Outbox capacity: `make(chan *Event, 8)` in core.NewClient. -/
def outboxCap : Nat := 8

/-- How a delivery was performed on the Go side. -/
inductive SendMode
  | block
  | nonblock
deriving DecidableEq, Repr

/-- One delivery attempt from the Hub loop to a session's outbox. -/
structure SendAction where
  mode : SendMode
  target : Nat
  event : Event
deriving DecidableEq, Repr

/-- State plus delivery trace accumulated while processing one command. -/
abbrev HubAcc := HubState × List SendAction

/-- A plain channel send `client.Events <- e`: the Hub loop blocks until
there is room, so in a completed execution the event is always enqueued,
never dropped. -/
def emitB (acc : HubAcc) (c : Nat) (e : Event) : HubAcc :=
  ({ acc.1 with
      outbox := fun x => if x = c then acc.1.outbox x ++ [e] else acc.1.outbox x },
   acc.2 ++ [⟨.block, c, e⟩])

/-- A `select`-with-`default` send: enqueue when the outbox has room,
drop the event otherwise. -/
def emitN (acc : HubAcc) (c : Nat) (e : Event) : HubAcc :=
  (if (acc.1.outbox c).length < outboxCap then
    { acc.1 with
        outbox := fun x => if x = c then acc.1.outbox x ++ [e] else acc.1.outbox x }
   else acc.1,
   acc.2 ++ [⟨.nonblock, c, e⟩])

/-- Room.Broadcast via coreHub.broadcastToRoom: non-blocking send to every
member of the room; a no-op when the room is absent from the map. -/
def broadcastToRoom (acc : HubAcc) (room : String) (e : Event) : HubAcc :=
  match acc.1.rooms room with
  | none => acc
  | some mem => mem.foldl (fun a x => emitN a x e) acc

/-- coreHub.sendToUser: look the user up in the index and send
non-blockingly; returns without sending when the user is not connected. -/
def sendToUserA (acc : HubAcc) (uid : Int) (e : Event) : HubAcc :=
  match acc.1.userIndex uid with
  | none => acc
  | some c => emitN acc c e

/-- coreHub.sendCallError: a plain (blocking) send of an Error event with
an empty Room field to the offending client. -/
def sendCallError (acc : HubAcc) (c : Nat) (code msg : String) : HubAcc :=
  emitB acc c (.errorEvent code msg "")

/-- Insert into a Go map-backed set: a no-op when already present. -/
def slInsert {α : Type} [DecidableEq α] (a : α) (l : List α) : List α :=
  if a ∈ l then l else a :: l

/-- A persisted message row (store.Message) as the Hub reads it. -/
structure StoreMsg where
  id : Int
  userId : Int
  body : String
  createdAt : Int
deriving DecidableEq, Repr

/-- The persistence capabilities the Hub itself consults
(store.GetRoomByName, ListMessages, GetUserByID, SaveMessage);
`saveMessage` returns the row id the store assigned on success and `none`
on failure, `listMessages` is the last-20 query of the join handler. -/
structure HubStore where
  getRoomByName : String → Option StoreRoom
  listMessages : Int → Except Unit (List StoreMsg)
  getUserById : Int → Option String
  saveMessage : Int → Int → String → Int → Option Int

/-- A call row as the Hub reads it back from the calls service. -/
structure HubCall where
  id : String
  initiatorUserID : Int
  createdAt : Int
deriving DecidableEq, Repr

/-- The calls-service capability set the Hub calls into
(core.CallService), abstracted as pure fallible operations; errors carry
the Go error message string. -/
structure CallSvc where
  createDirectCall : Int → Int → Except String HubCall
  createRoomCall : Int → Int → Except String HubCall
  getCall : String → Except String HubCall
  getJoinInfo : String → Int → Except String EngineJoinInfo
  endCall : String → Int → Except String Unit
  rejectCall : String → Int → String → Except String Unit
  leaveCall : String → Int → Except String Unit
  getTargetUser : Int → Except String String
  listRoomMembers : Int → Except String (List Int)
  getRoomInfo : Int → Except String String

/-- A command handled by the Hub loop (core.Command / core.CallCommand). -/
inductive Command
  | joinRoom (room : String)
  | leaveRoom (room : String)
  | sendRoomMessage (room : String) (msg : Msg)
  | callInvite (callType : String) (toUserID roomID : Int)
  | callAccept (callID : String)
  | callReject (callID : String) (reason : String)
  | callJoin (callID : String)
  | callLeave (callID : String)
  | callEnd (callID : String)
deriving DecidableEq, Repr

/-- coreHub.joinRoom: reject empty names and re-joins, otherwise create
the room on demand, add the session to it mutually, broadcast UserJoined,
then best-effort send message history to the joiner only. -/
def joinRoomH (info : Nat → Ident) (store : Option HubStore) (st : HubState)
    (c : Nat) (room : String) : HubAcc :=
  if room = "" then
    emitB (st, []) c (.errorEvent "bad_request" "bad request" room)
  else
    let mem := (st.rooms room).getD []
    if c ∈ mem then
      emitB (st, []) c (.errorEvent "already_joined" "already joined" room)
    else
      let st1 : HubState :=
        { st with
            rooms := fun n => if n = room then some (c :: mem) else st.rooms n,
            clientRooms := fun x =>
              if x = c then slInsert room (st.clientRooms x) else st.clientRooms x }
      let acc := broadcastToRoom (st1, []) room (.userJoined room (info c).name)
      match store with
      | none => acc
      | some sm =>
        match sm.getRoomByName room with
        | none => acc
        | some dbRoom =>
          match sm.listMessages dbRoom.id with
          | .error _ => acc
          | .ok msgs =>
            if msgs.isEmpty then acc
            else
              emitB acc c (.history room (msgs.map fun m =>
                { id := m.id, room := room,
                  fromUser := (sm.getUserById m.userId).getD "unknown",
                  text := m.body, createdAt := m.createdAt }))

/-- coreHub.leaveRoom: reject a missing room or a non-member, otherwise
remove the session mutually, broadcast UserLeft to the remainders, and
delete the room when it became empty. -/
def leaveRoomH (info : Nat → Ident) (st : HubState) (c : Nat) (room : String) :
    HubAcc :=
  match st.rooms room with
  | none => emitB (st, []) c (.errorEvent "room_not_found" "room not found" room)
  | some mem =>
    if c ∈ mem then
      let mem1 := mem.filter (fun x => x ≠ c)
      let st1 : HubState :=
        { st with
            rooms := fun n => if n = room then some mem1 else st.rooms n,
            clientRooms := fun x =>
              if x = c then (st.clientRooms x).filter (fun r => r ≠ room)
              else st.clientRooms x }
      let acc := broadcastToRoom (st1, []) room (.userLeft room (info c).name)
      if mem1.isEmpty then
        ({ acc.1 with rooms := fun n => if n = room then none else acc.1.rooms n },
         acc.2)
      else acc
    else emitB (st, []) c (.errorEvent "not_in_room" "not in room" room)

/-- coreHub.sendRoomMessage: reject empty rooms and non-joined senders;
stamp `created_at` when zero and `from` when empty; persist only for
non-guest users with a positive id when the room has a persisted
counterpart and the save succeeds, adopting the stored id; always
broadcast to every member, the sender included. -/
def sendRoomMessageH (info : Nat → Ident) (store : Option HubStore) (now : Int)
    (st : HubState) (c : Nat) (room : String) (msg : Msg) : HubAcc :=
  if room = "" then
    emitB (st, []) c (.errorEvent "bad_request" "bad request" room)
  else if room ∈ st.clientRooms c then
    let msg1 : Msg :=
      { msg with
          room := room,
          createdAt := if msg.createdAt = 0 then now else msg.createdAt,
          fromUser := if msg.fromUser = "" then (info c).name else msg.fromUser }
    let msg2 : Msg :=
      if (info c).isGuest = false ∧ 0 < (info c).userId then
        match store with
        | none => msg1
        | some sm =>
          match sm.getRoomByName room with
          | none => msg1
          | some dbRoom =>
            match sm.saveMessage dbRoom.id (info c).userId msg1.text msg1.createdAt with
            | none => msg1
            | some newId => { msg1 with id := newId }
      else msg1
    broadcastToRoom (st, []) room (.roomMessage room msg2)
  else
    emitB (st, []) c (.errorEvent "not_in_room" "not in room" room)

/-- coreHub.handleCallInvite: gate on the call service and authentication,
then create the call and route CallRinging to the initiator (plain send)
and CallIncoming to the target(s) via the user index (non-blocking). -/
def handleCallInviteH (info : Nat → Ident) (svc : Option CallSvc) (st : HubState)
    (c : Nat) (callType : String) (toUserID roomID : Int) : HubAcc :=
  match svc with
  | none => sendCallError (st, []) c "calls_disabled" "calls are not enabled"
  | some m =>
    if (info c).isGuest = true ∨ (info c).userId = 0 then
      sendCallError (st, []) c "unauthorized" "authentication required for calls"
    else if callType = "direct" then
      match m.createDirectCall (info c).userId toUserID with
      | .error e => sendCallError (st, []) c "call_error" e
      | .ok call =>
        let toUsername :=
          match m.getTargetUser toUserID with
          | .ok u => u
          | .error _ => "unknown"
        let acc := emitB (st, []) c (.callRinging call.id toUserID toUsername)
        sendToUserA acc toUserID
          (.callIncoming call.id "direct" (info c).userId (info c).name 0 ""
            call.createdAt)
    else if callType = "room" then
      match m.createRoomCall (info c).userId roomID with
      | .error e => sendCallError (st, []) c "call_error" e
      | .ok call =>
        let roomName :=
          match m.getRoomInfo roomID with
          | .ok n => n
          | .error _ => ""
        match m.listRoomMembers roomID with
        | .error e => sendCallError (st, []) c "call_error" e
        | .ok memberIDs =>
          memberIDs.foldl
            (fun a mid =>
              if mid ≠ (info c).userId then
                sendToUserA a mid
                  (.callIncoming call.id "room" (info c).userId (info c).name
                    roomID roomName call.createdAt)
              else a)
            (st, [])
    else (st, [])

/-- coreHub.handleCallAccept: join-info to the acceptor (plain send), then
CallAccepted and the initiator's join-info via the user index. -/
def handleCallAcceptH (info : Nat → Ident) (svc : Option CallSvc) (st : HubState)
    (c : Nat) (callID : String) : HubAcc :=
  match svc with
  | none => sendCallError (st, []) c "calls_disabled" "calls are not enabled"
  | some m =>
    if (info c).isGuest = true ∨ (info c).userId = 0 then
      sendCallError (st, []) c "unauthorized" "authentication required for calls"
    else
      match m.getJoinInfo callID (info c).userId with
      | .error e => sendCallError (st, []) c "call_error" e
      | .ok ji =>
        match m.getCall callID with
        | .error _ => sendCallError (st, []) c "call_not_found" "call not found"
        | .ok call =>
          let acc := emitB (st, []) c (.callJoinInfo callID ji)
          let acc := sendToUserA acc call.initiatorUserID
            (.callAccepted callID (info c).userId (info c).name)
          match m.getJoinInfo callID call.initiatorUserID with
          | .ok ji2 => sendToUserA acc call.initiatorUserID (.callJoinInfo callID ji2)
          | .error _ => acc

/-- coreHub.handleCallReject: reject the call, then CallRejected and
CallEnded to the initiator via the user index. -/
def handleCallRejectH (info : Nat → Ident) (svc : Option CallSvc) (st : HubState)
    (c : Nat) (callID reason : String) : HubAcc :=
  match svc with
  | none => sendCallError (st, []) c "calls_disabled" "calls are not enabled"
  | some m =>
    if (info c).isGuest = true ∨ (info c).userId = 0 then
      sendCallError (st, []) c "unauthorized" "authentication required for calls"
    else
      match m.getCall callID with
      | .error _ => sendCallError (st, []) c "call_not_found" "call not found"
      | .ok call =>
        match m.rejectCall callID (info c).userId reason with
        | .error e => sendCallError (st, []) c "call_error" e
        | .ok _ =>
          let acc := sendToUserA (st, []) call.initiatorUserID
            (.callRejected callID (info c).userId reason)
          let r := if reason ≠ "" then reason else "rejected"
          sendToUserA acc call.initiatorUserID
            (.callEnded callID (info c).userId r)

/-- coreHub.handleCallJoin: unicast the join credentials to the joiner. -/
def handleCallJoinH (info : Nat → Ident) (svc : Option CallSvc) (st : HubState)
    (c : Nat) (callID : String) : HubAcc :=
  match svc with
  | none => sendCallError (st, []) c "calls_disabled" "calls are not enabled"
  | some m =>
    if (info c).isGuest = true ∨ (info c).userId = 0 then
      sendCallError (st, []) c "unauthorized" "authentication required for calls"
    else
      match m.getJoinInfo callID (info c).userId with
      | .error e => sendCallError (st, []) c "call_error" e
      | .ok ji => emitB (st, []) c (.callJoinInfo callID ji)

/-- coreHub.handleCallLeave: record the leave; no events on success. -/
def handleCallLeaveH (info : Nat → Ident) (svc : Option CallSvc) (st : HubState)
    (c : Nat) (callID : String) : HubAcc :=
  match svc with
  | none => sendCallError (st, []) c "calls_disabled" "calls are not enabled"
  | some m =>
    if (info c).isGuest = true ∨ (info c).userId = 0 then
      sendCallError (st, []) c "unauthorized" "authentication required for calls"
    else
      match m.leaveCall callID (info c).userId with
      | .error e => sendCallError (st, []) c "call_error" e
      | .ok _ => (st, [])

/-- coreHub.handleCallEnd: end the call; CallEnded to the initiator when
someone else ended it. -/
def handleCallEndH (info : Nat → Ident) (svc : Option CallSvc) (st : HubState)
    (c : Nat) (callID : String) : HubAcc :=
  match svc with
  | none => sendCallError (st, []) c "calls_disabled" "calls are not enabled"
  | some m =>
    if (info c).isGuest = true ∨ (info c).userId = 0 then
      sendCallError (st, []) c "unauthorized" "authentication required for calls"
    else
      match m.getCall callID with
      | .error _ => sendCallError (st, []) c "call_not_found" "call not found"
      | .ok call =>
        match m.endCall callID (info c).userId with
        | .error e => sendCallError (st, []) c "call_error" e
        | .ok _ =>
          if call.initiatorUserID ≠ (info c).userId then
            sendToUserA (st, []) call.initiatorUserID
              (.callEnded callID (info c).userId "ended")
          else (st, [])

/-- coreHub.handleCommand: dispatch one command. -/
def handleCommand (info : Nat → Ident) (svc : Option CallSvc)
    (store : Option HubStore) (now : Int) (st : HubState) (c : Nat) :
    Command → HubAcc
  | .joinRoom room => joinRoomH info store st c room
  | .leaveRoom room => leaveRoomH info st c room
  | .sendRoomMessage room msg => sendRoomMessageH info store now st c room msg
  | .callInvite callType toUserID roomID =>
    handleCallInviteH info svc st c callType toUserID roomID
  | .callAccept callID => handleCallAcceptH info svc st c callID
  | .callReject callID reason => handleCallRejectH info svc st c callID reason
  | .callJoin callID => handleCallJoinH info svc st c callID
  | .callLeave callID => handleCallLeaveH info svc st c callID
  | .callEnd callID => handleCallEndH info svc st c callID

/-- coreHub.removeClient: a no-op for sessions not in the session set;
otherwise leave every joined room, drop the session from the set, delete
its user-index entry when `user_id > 0`, and close its outbox. -/
def removeClient (info : Nat → Ident) (st : HubState) (c : Nat) : HubState :=
  if c ∈ st.clients then
    let st1 := (st.clientRooms c).foldl (fun s room => (leaveRoomH info s c room).1) st
    { st1 with
        clients := st1.clients.filter (fun x => x ≠ c),
        userIndex :=
          if 0 < (info c).userId then
            fun u => if u = (info c).userId then none else st1.userIndex u
          else st1.userIndex,
        outboxClosed := fun x => if x = c then true else st1.outboxClosed x }
  else st

/-- One input drawn by coreHub.Run's select: a registration, an
unregistration, or a command tagged with the session that sent it. -/
inductive HubIn
  | register (c : Nat)
  | unregister (c : Nat)
  | command (c : Nat) (cmd : Command) (now : Int)

/-- coreHub.Run, one loop iteration. Registration adds the session to the
set and records it in the user index (last-writer-wins) when
`user_id > 0`. -/
def hubStep (info : Nat → Ident) (svc : Option CallSvc) (store : Option HubStore)
    (st : HubState) : HubIn → HubState
  | .register c =>
    { st with
        clients := slInsert c st.clients,
        userIndex :=
          if 0 < (info c).userId then
            fun u => if u = (info c).userId then some c else st.userIndex u
          else st.userIndex }
  | .unregister c => removeClient info st c
  | .command c cmd now => (handleCommand info svc store now st c cmd).1

/-- The Hub state right after NewHub: no sessions, no rooms, no index. -/
def hubInit : HubState where
  clients := []
  rooms := fun _ => none
  clientRooms := fun _ => []
  userIndex := fun _ => none
  outbox := fun _ => []
  outboxClosed := fun _ => false

/-- Hub states reachable from the initial state by loop iterations. -/
inductive Reachable (info : Nat → Ident) (svc : Option CallSvc)
    (store : Option HubStore) : HubState → Prop
  | init : Reachable info svc store hubInit
  | step (st : HubState) (i : HubIn) :
      Reachable info svc store st → Reachable info svc store (hubStep info svc store st i)

/-! ### Field-preservation lemmas

The delivery primitives touch only outboxes (`graphEq`); the command
handlers touch only outboxes, rooms and joined-room sets (`cuEq`). -/

/-- All Hub fields except the outboxes agree. -/
def graphEq (s t : HubState) : Prop :=
  s.rooms = t.rooms ∧ s.clientRooms = t.clientRooms ∧ s.clients = t.clients ∧
  s.userIndex = t.userIndex ∧ s.outboxClosed = t.outboxClosed

theorem graphEq_refl (s : HubState) : graphEq s s := ⟨rfl, rfl, rfl, rfl, rfl⟩

theorem graphEq_trans {s t u : HubState} (h1 : graphEq s t) (h2 : graphEq t u) :
    graphEq s u :=
  ⟨h1.1.trans h2.1, h1.2.1.trans h2.2.1, h1.2.2.1.trans h2.2.2.1,
   h1.2.2.2.1.trans h2.2.2.2.1, h1.2.2.2.2.trans h2.2.2.2.2⟩

/-- Session set, user index and closed flags agree. -/
def cuEq (s t : HubState) : Prop :=
  s.clients = t.clients ∧ s.userIndex = t.userIndex ∧ s.outboxClosed = t.outboxClosed

theorem cuEq_refl (s : HubState) : cuEq s s := ⟨rfl, rfl, rfl⟩

theorem cuEq_trans {s t u : HubState} (h1 : cuEq s t) (h2 : cuEq t u) : cuEq s u :=
  ⟨h1.1.trans h2.1, h1.2.1.trans h2.2.1, h1.2.2.trans h2.2.2⟩

theorem graphEq_cuEq {s t : HubState} (h : graphEq s t) : cuEq s t :=
  ⟨h.2.2.1, h.2.2.2.1, h.2.2.2.2⟩

theorem emitB_graphEq (acc : HubAcc) (c : Nat) (e : Event) :
    graphEq acc.1 (emitB acc c e).1 :=
  ⟨rfl, rfl, rfl, rfl, rfl⟩

theorem emitN_graphEq (acc : HubAcc) (c : Nat) (e : Event) :
    graphEq acc.1 (emitN acc c e).1 := by
  unfold emitN
  dsimp only
  split
  · exact ⟨rfl, rfl, rfl, rfl, rfl⟩
  · exact graphEq_refl _

theorem foldl_graphEq {α : Type} (g : HubAcc → α → HubAcc)
    (hg : ∀ a x, graphEq a.1 (g a x).1) :
    ∀ (l : List α) (acc : HubAcc), graphEq acc.1 (l.foldl g acc).1
  | [], _ => graphEq_refl _
  | x :: xs, acc => graphEq_trans (hg acc x) (foldl_graphEq g hg xs (g acc x))

theorem broadcastToRoom_graphEq (acc : HubAcc) (room : String) (e : Event) :
    graphEq acc.1 (broadcastToRoom acc room e).1 := by
  unfold broadcastToRoom
  cases acc.1.rooms room
  · exact graphEq_refl _
  · exact foldl_graphEq _ (fun a x => emitN_graphEq a x e) _ acc

theorem sendToUserA_graphEq (acc : HubAcc) (uid : Int) (e : Event) :
    graphEq acc.1 (sendToUserA acc uid e).1 := by
  unfold sendToUserA
  cases acc.1.userIndex uid
  · exact graphEq_refl _
  · exact emitN_graphEq acc _ e

theorem sendCallError_graphEq (acc : HubAcc) (c : Nat) (code msg : String) :
    graphEq acc.1 (sendCallError acc c code msg).1 :=
  emitB_graphEq acc c _

theorem broadcast_cuEq_chain (st st1 : HubState) (tr : List SendAction)
    (room : String) (e : Event) (h : cuEq st st1) :
    cuEq st (broadcastToRoom (st1, tr) room e).1 :=
  cuEq_trans h (graphEq_cuEq (broadcastToRoom_graphEq (st1, tr) room e))

theorem emitB_cuEq_chain (st : HubState) (acc : HubAcc) (c : Nat) (e : Event)
    (h : cuEq st acc.1) : cuEq st (emitB acc c e).1 :=
  cuEq_trans h (graphEq_cuEq (emitB_graphEq acc c e))

theorem roomsUpdate_cuEq (s : HubState) (f : String → Option (List Nat)) :
    cuEq s { s with rooms := f } := ⟨rfl, rfl, rfl⟩

theorem leaveDelete_cuEq_chain (st st1 : HubState) (tr : List SendAction)
    (room : String) (e : Event) (f : String → Option (List Nat)) (h : cuEq st st1) :
    cuEq st { (broadcastToRoom (st1, tr) room e).1 with rooms := f } :=
  cuEq_trans (broadcast_cuEq_chain st st1 tr room e h) ⟨rfl, rfl, rfl⟩

theorem sendToUserA_graphEq_chain (st : HubState) (acc : HubAcc) (uid : Int)
    (e : Event) (h : graphEq st acc.1) : graphEq st (sendToUserA acc uid e).1 :=
  graphEq_trans h (sendToUserA_graphEq acc uid e)

theorem foldl_graphEq2 {α : Type} (st : HubState) (tr : List SendAction)
    (g : HubAcc → α → HubAcc) (hg : ∀ a x, graphEq a.1 (g a x).1) (l : List α) :
    graphEq st (l.foldl g (st, tr)).1 :=
  foldl_graphEq g hg l (st, tr)

theorem joinRoomH_cuEq (info : Nat → Ident) (store : Option HubStore)
    (st : HubState) (c : Nat) (room : String) :
    cuEq st (joinRoomH info store st c room).1 := by
  unfold joinRoomH
  dsimp only
  split
  · exact ⟨rfl, rfl, rfl⟩
  · split
    · exact ⟨rfl, rfl, rfl⟩
    · cases store with
      | none =>
        refine broadcast_cuEq_chain st _ _ _ _ ?_
        exact ⟨rfl, rfl, rfl⟩
      | some sm =>
        dsimp only
        cases sm.getRoomByName room with
        | none =>
          refine broadcast_cuEq_chain st _ _ _ _ ?_
          exact ⟨rfl, rfl, rfl⟩
        | some dbRoom =>
          dsimp only
          cases sm.listMessages dbRoom.id with
          | error e =>
            refine broadcast_cuEq_chain st _ _ _ _ ?_
            exact ⟨rfl, rfl, rfl⟩
          | ok msgs =>
            dsimp only
            split
            · refine broadcast_cuEq_chain st _ _ _ _ ?_
              exact ⟨rfl, rfl, rfl⟩
            · refine emitB_cuEq_chain st _ _ _ ?_
              refine broadcast_cuEq_chain st _ _ _ _ ?_
              exact ⟨rfl, rfl, rfl⟩

theorem leaveRoomH_cuEq (info : Nat → Ident) (st : HubState) (c : Nat)
    (room : String) : cuEq st (leaveRoomH info st c room).1 := by
  unfold leaveRoomH
  dsimp only
  cases st.rooms room with
  | none => exact ⟨rfl, rfl, rfl⟩
  | some mem =>
    dsimp only
    split
    · split
      · refine leaveDelete_cuEq_chain st _ _ _ _ _ ?_
        exact ⟨rfl, rfl, rfl⟩
      · refine broadcast_cuEq_chain st _ _ _ _ ?_
        exact ⟨rfl, rfl, rfl⟩
    · exact ⟨rfl, rfl, rfl⟩

theorem sendRoomMessageH_cuEq (info : Nat → Ident) (store : Option HubStore)
    (now : Int) (st : HubState) (c : Nat) (room : String) (msg : Msg) :
    cuEq st (sendRoomMessageH info store now st c room msg).1 := by
  unfold sendRoomMessageH
  dsimp only
  split
  · exact ⟨rfl, rfl, rfl⟩
  · split
    · refine broadcast_cuEq_chain st _ _ _ _ ?_
      exact ⟨rfl, rfl, rfl⟩
    · exact ⟨rfl, rfl, rfl⟩

theorem handleCallInviteH_graphEq (info : Nat → Ident) (svc : Option CallSvc)
    (st : HubState) (c : Nat) (callType : String) (toUserID roomID : Int) :
    graphEq st (handleCallInviteH info svc st c callType toUserID roomID).1 := by
  unfold handleCallInviteH
  cases svc with
  | none => exact ⟨rfl, rfl, rfl, rfl, rfl⟩
  | some m =>
    dsimp only
    split
    · exact ⟨rfl, rfl, rfl, rfl, rfl⟩
    · split
      · cases m.createDirectCall (info c).userId toUserID with
        | error e => exact ⟨rfl, rfl, rfl, rfl, rfl⟩
        | ok call =>
          dsimp only
          refine sendToUserA_graphEq_chain st _ _ _ ?_
          exact ⟨rfl, rfl, rfl, rfl, rfl⟩
      · split
        · cases m.createRoomCall (info c).userId roomID with
          | error e => exact ⟨rfl, rfl, rfl, rfl, rfl⟩
          | ok call =>
            dsimp only
            cases m.listRoomMembers roomID with
            | error e => exact ⟨rfl, rfl, rfl, rfl, rfl⟩
            | ok memberIDs =>
              dsimp only
              refine foldl_graphEq2 st _ _ (fun a x => ?_) _
              split
              · exact sendToUserA_graphEq a _ _
              · exact graphEq_refl _
        · exact graphEq_refl st

theorem handleCallAcceptH_graphEq (info : Nat → Ident) (svc : Option CallSvc)
    (st : HubState) (c : Nat) (callID : String) :
    graphEq st (handleCallAcceptH info svc st c callID).1 := by
  unfold handleCallAcceptH
  cases svc with
  | none => exact ⟨rfl, rfl, rfl, rfl, rfl⟩
  | some m =>
    dsimp only
    split
    · exact ⟨rfl, rfl, rfl, rfl, rfl⟩
    · cases m.getJoinInfo callID (info c).userId with
      | error e => exact ⟨rfl, rfl, rfl, rfl, rfl⟩
      | ok ji =>
        dsimp only
        cases m.getCall callID with
        | error e => exact ⟨rfl, rfl, rfl, rfl, rfl⟩
        | ok call =>
          dsimp only
          cases m.getJoinInfo callID call.initiatorUserID with
          | ok ji2 =>
            dsimp only
            refine sendToUserA_graphEq_chain st _ _ _ ?_
            refine sendToUserA_graphEq_chain st _ _ _ ?_
            exact ⟨rfl, rfl, rfl, rfl, rfl⟩
          | error e =>
            dsimp only
            refine sendToUserA_graphEq_chain st _ _ _ ?_
            exact ⟨rfl, rfl, rfl, rfl, rfl⟩

theorem handleCallRejectH_graphEq (info : Nat → Ident) (svc : Option CallSvc)
    (st : HubState) (c : Nat) (callID reason : String) :
    graphEq st (handleCallRejectH info svc st c callID reason).1 := by
  unfold handleCallRejectH
  cases svc with
  | none => exact ⟨rfl, rfl, rfl, rfl, rfl⟩
  | some m =>
    dsimp only
    split
    · exact ⟨rfl, rfl, rfl, rfl, rfl⟩
    · cases m.getCall callID with
      | error e => exact ⟨rfl, rfl, rfl, rfl, rfl⟩
      | ok call =>
        dsimp only
        cases m.rejectCall callID (info c).userId reason with
        | error e => exact ⟨rfl, rfl, rfl, rfl, rfl⟩
        | ok u =>
          dsimp only
          refine sendToUserA_graphEq_chain st _ _ _ ?_
          refine sendToUserA_graphEq_chain st _ _ _ ?_
          exact graphEq_refl st

theorem handleCallJoinH_graphEq (info : Nat → Ident) (svc : Option CallSvc)
    (st : HubState) (c : Nat) (callID : String) :
    graphEq st (handleCallJoinH info svc st c callID).1 := by
  unfold handleCallJoinH
  cases svc with
  | none => exact ⟨rfl, rfl, rfl, rfl, rfl⟩
  | some m =>
    dsimp only
    split
    · exact ⟨rfl, rfl, rfl, rfl, rfl⟩
    · cases m.getJoinInfo callID (info c).userId with
      | error e => exact ⟨rfl, rfl, rfl, rfl, rfl⟩
      | ok ji => exact ⟨rfl, rfl, rfl, rfl, rfl⟩

theorem handleCallLeaveH_graphEq (info : Nat → Ident) (svc : Option CallSvc)
    (st : HubState) (c : Nat) (callID : String) :
    graphEq st (handleCallLeaveH info svc st c callID).1 := by
  unfold handleCallLeaveH
  cases svc with
  | none => exact ⟨rfl, rfl, rfl, rfl, rfl⟩
  | some m =>
    dsimp only
    split
    · exact ⟨rfl, rfl, rfl, rfl, rfl⟩
    · cases m.leaveCall callID (info c).userId with
      | error e => exact ⟨rfl, rfl, rfl, rfl, rfl⟩
      | ok u => exact graphEq_refl st

theorem handleCallEndH_graphEq (info : Nat → Ident) (svc : Option CallSvc)
    (st : HubState) (c : Nat) (callID : String) :
    graphEq st (handleCallEndH info svc st c callID).1 := by
  unfold handleCallEndH
  cases svc with
  | none => exact ⟨rfl, rfl, rfl, rfl, rfl⟩
  | some m =>
    dsimp only
    split
    · exact ⟨rfl, rfl, rfl, rfl, rfl⟩
    · cases m.getCall callID with
      | error e => exact ⟨rfl, rfl, rfl, rfl, rfl⟩
      | ok call =>
        dsimp only
        cases m.endCall callID (info c).userId with
        | error e => exact ⟨rfl, rfl, rfl, rfl, rfl⟩
        | ok u =>
          dsimp only
          split
          · refine sendToUserA_graphEq_chain st _ _ _ ?_
            exact graphEq_refl st
          · exact graphEq_refl st

theorem handleCommand_cuEq (info : Nat → Ident) (svc : Option CallSvc)
    (store : Option HubStore) (now : Int) (st : HubState) (c : Nat)
    (cmd : Command) : cuEq st (handleCommand info svc store now st c cmd).1 := by
  cases cmd with
  | joinRoom room => exact joinRoomH_cuEq info store st c room
  | leaveRoom room => exact leaveRoomH_cuEq info st c room
  | sendRoomMessage room msg => exact sendRoomMessageH_cuEq info store now st c room msg
  | callInvite callType toUserID roomID =>
    exact graphEq_cuEq (handleCallInviteH_graphEq info svc st c callType toUserID roomID)
  | callAccept callID => exact graphEq_cuEq (handleCallAcceptH_graphEq info svc st c callID)
  | callReject callID reason =>
    exact graphEq_cuEq (handleCallRejectH_graphEq info svc st c callID reason)
  | callJoin callID => exact graphEq_cuEq (handleCallJoinH_graphEq info svc st c callID)
  | callLeave callID => exact graphEq_cuEq (handleCallLeaveH_graphEq info svc st c callID)
  | callEnd callID => exact graphEq_cuEq (handleCallEndH_graphEq info svc st c callID)

theorem mem_slInsert_self {α : Type} [DecidableEq α] (a : α) (l : List α) :
    a ∈ slInsert a l := by
  unfold slInsert
  split
  · assumption
  · exact List.mem_cons_self a l

theorem mem_slInsert_of_mem {α : Type} [DecidableEq α] (a b : α) (l : List α)
    (h : b ∈ l) : b ∈ slInsert a l := by
  unfold slInsert
  split
  · exact h
  · exact List.mem_cons_of_mem a h

/-- Folding leaveRoom over a list of room names changes only rooms,
joined-room sets and outboxes. -/
theorem foldl_leave_cuEq (info : Nat → Ident) (c : Nat) (l : List String)
    (st : HubState) :
    cuEq st (l.foldl (fun s room => (leaveRoomH info s c room).1) st) := by
  induction l generalizing st with
  | nil => exact cuEq_refl st
  | cons r rs ih =>
    exact cuEq_trans (leaveRoomH_cuEq info st c r) (ih _)

/-- Two distinct sessions carrying the same positive user id. -/
def infoDup : Nat → Ident := fun _ => ⟨5, "dup", false⟩

/-- Counterexample to C2: register session 0 (user 5), register session 1
(user 5, last-writer-wins), then unregister the stale session 0.
`removeClient` deletes the index entry for user 5 unconditionally, so the
still-registered session 1 with user_id 5 > 0 is no longer indexed —
unregistering one session removed the index entry of a different live
session. -/
theorem userIndexClobbered :
    1 ∈ (hubStep infoDup none none
        (hubStep infoDup none none
          (hubStep infoDup none none hubInit (.register 0)) (.register 1))
        (.unregister 0)).clients ∧
    (infoDup 1).userId = 5 ∧
    (hubStep infoDup none none
        (hubStep infoDup none none
          (hubStep infoDup none none hubInit (.register 0)) (.register 1))
        (.unregister 0)).userIndex 5 = none := by
  refine ⟨?_, rfl, ?_⟩ <;> decide

/-- Index soundness: every user-index entry points to a registered
session whose user id is the (positive) key of the entry. -/
def indexInv (info : Nat → Ident) (st : HubState) : Prop :=
  ∀ uid cl, st.userIndex uid = some cl →
    cl ∈ st.clients ∧ (info cl).userId = uid ∧ 0 < uid

/-- C2 amended — In every reachable Hub state the user index maps a
user_id only to a registered session carrying exactly that (positive)
user_id; registration records sessions with user_id > 0 last-writer-wins,
and unregistering deletes the entry at the session's user_id
unconditionally — which may drop the entry of a different still-registered
session with the same user_id, so a registered session with user_id > 0
need not be indexed when another session registered the same id. -/
theorem userIndexSound (info : Nat → Ident) (svc : Option CallSvc)
    (store : Option HubStore) (st : HubState)
    (h : Reachable info svc store st) : indexInv info st := by
  induction h with
  | init =>
    intro uid cl hx
    cases hx
  | step st i hr ih =>
    cases i with
    | register c =>
      intro uid cl hx
      dsimp only [hubStep] at hx ⊢
      by_cases hpos : 0 < (info c).userId
      · rw [if_pos hpos] at hx
        by_cases hu : uid = (info c).userId
        · rw [if_pos hu] at hx
          cases hx
          exact ⟨mem_slInsert_self c st.clients, hu.symm, hu ▸ hpos⟩
        · rw [if_neg hu] at hx
          obtain ⟨h1, h2, h3⟩ := ih uid cl hx
          exact ⟨mem_slInsert_of_mem c cl st.clients h1, h2, h3⟩
      · rw [if_neg hpos] at hx
        obtain ⟨h1, h2, h3⟩ := ih uid cl hx
        exact ⟨mem_slInsert_of_mem c cl st.clients h1, h2, h3⟩
    | unregister c =>
      intro uid cl hx
      dsimp only [hubStep] at hx ⊢
      unfold removeClient at hx ⊢
      by_cases hc : c ∈ st.clients
      · rw [if_pos hc] at hx ⊢
        have hfold := foldl_leave_cuEq info c (st.clientRooms c) st
        dsimp only at hx ⊢
        by_cases hpos : 0 < (info c).userId
        · rw [if_pos hpos] at hx
          by_cases hu : uid = (info c).userId
          · rw [if_pos hu] at hx
            cases hx
          · rw [if_neg hu] at hx
            rw [← hfold.2.1] at hx
            obtain ⟨h1, h2, h3⟩ := ih uid cl hx
            have hclne : cl ≠ c := by
              intro hcc
              rw [hcc] at h2
              exact hu (h2.symm)
            refine ⟨?_, h2, h3⟩
            rw [← hfold.1, List.mem_filter]
            exact ⟨h1, by simp [hclne]⟩
        · rw [if_neg hpos] at hx
          rw [← hfold.2.1] at hx
          obtain ⟨h1, h2, h3⟩ := ih uid cl hx
          have hclne : cl ≠ c := by
            intro hcc
            rw [hcc] at h2
            rw [h2] at hpos
            exact hpos h3
          refine ⟨?_, h2, h3⟩
          rw [← hfold.1, List.mem_filter]
          exact ⟨h1, by simp [hclne]⟩
      · rw [if_neg hc] at hx ⊢
        exact ih uid cl hx
    | command c cmd now =>
      intro uid cl hx
      dsimp only [hubStep] at hx ⊢
      have hcu := handleCommand_cuEq info svc store now st c cmd
      rw [← hcu.2.1] at hx
      obtain ⟨h1, h2, h3⟩ := ih uid cl hx
      rw [← hcu.1]
      exact ⟨h1, h2, h3⟩

/-- Witness for C2's amended theorem: after registering session 0 with
user id 5, the index entry for 5 points to the registered session 0. -/
theorem userIndexSound_witness :
    0 ∈ (hubStep infoDup none none hubInit (.register 0)).clients ∧
    (infoDup 0).userId = 5 ∧ (0 : Int) < 5 :=
  userIndexSound infoDup none none
    (hubStep infoDup none none hubInit (.register 0))
    (.step hubInit (.register 0) .init) 5 0 (by decide)

/-- C10 — Unregistering is idempotent at the Hub: removeClient on a
session that is not (or no longer) in the session set leaves the Hub
state — the outbox-closed flag included — entirely unchanged, so of the
two unregister requests every connection produces (command-forwarder and
connection handler), only the first can close the outbox; the second is a
no-op and no outbox is ever closed twice. -/
theorem removeClientIdempotent (info : Nat → Ident) (st : HubState) (c : Nat) :
    (c ∉ st.clients → removeClient info st c = st) ∧
    removeClient info (removeClient info st c) c = removeClient info st c := by
  have hnot : ∀ s : HubState, c ∉ s.clients → removeClient info s c = s := by
    intro s hs
    unfold removeClient
    rw [if_neg hs]
  refine ⟨hnot st, ?_⟩
  by_cases hc : c ∈ st.clients
  · apply hnot
    unfold removeClient
    rw [if_pos hc]
    dsimp only
    intro hmem
    rw [List.mem_filter] at hmem
    simp at hmem
  · rw [hnot st hc]
    exact hnot st hc

/-- Witness for C10: on the empty Hub, removing an unknown session is the
identity, twice. -/
theorem removeClientIdempotent_witness :
    removeClient infoDup hubInit 0 = hubInit ∧
    removeClient infoDup (removeClient infoDup hubInit 0) 0 =
      removeClient infoDup hubInit 0 :=
  ⟨(removeClientIdempotent infoDup hubInit 0).1 (by decide),
   (removeClientIdempotent infoDup hubInit 0).2⟩

/-! ### Room-membership invariant (claim C3) -/

/-- The two coupled room-graph properties over raw maps: a session is in
a room's member set iff the room's name is in the session's joined set,
and every room present in the map is non-empty. -/
def roomInvF (rooms : String → Option (List Nat)) (cr : Nat → List String) : Prop :=
  (∀ c room, (∃ mem, rooms room = some mem ∧ c ∈ mem) ↔ room ∈ cr c) ∧
  (∀ room mem, rooms room = some mem → mem ≠ [])

/-- The C3 invariant on a Hub state. -/
def roomInv (s : HubState) : Prop := roomInvF s.rooms s.clientRooms

theorem roomInvF_congr {r1 r2 : String → Option (List Nat)}
    {cr1 cr2 : Nat → List String} (hr : ∀ n, r1 n = r2 n) (hc : ∀ x, cr1 x = cr2 x)
    (h : roomInvF r1 cr1) : roomInvF r2 cr2 := by
  have h1 : r1 = r2 := funext hr
  have h2 : cr1 = cr2 := funext hc
  subst h1
  subst h2
  exact h

theorem roomInv_of_graphEq {s t : HubState} (hg : graphEq s t) (h : roomInv s) :
    roomInv t := by
  unfold roomInv
  rw [← hg.1, ← hg.2.1]
  exact h

theorem mem_slInsert_ne {α : Type} [DecidableEq α] (a b : α) (l : List α)
    (h : a ≠ b) : a ∈ slInsert b l ↔ a ∈ l := by
  unfold slInsert
  split
  · exact Iff.rfl
  · simp [List.mem_cons, h]

/-- Joining preserves the invariant on the raw maps. -/
theorem roomInvF_join (rooms : String → Option (List Nat)) (cr : Nat → List String)
    (c : Nat) (room : String) (h : roomInvF rooms cr)
    (hnm : c ∉ (rooms room).getD []) :
    roomInvF (fun n => if n = room then some (c :: (rooms room).getD []) else rooms n)
      (fun x => if x = c then slInsert room (cr x) else cr x) := by
  obtain ⟨hmem, hne⟩ := h
  constructor
  · intro c2 room2
    by_cases hr2 : room2 = room
    · subst hr2
      by_cases hc2 : c2 = c
      · subst hc2
        simp only [eq_self_iff_true, if_true]
        constructor
        · intro _
          exact mem_slInsert_self room2 (cr c2)
        · intro _
          exact ⟨_, rfl, List.mem_cons_self _ _⟩
      · simp only [eq_self_iff_true, if_true, if_neg hc2]
        constructor
        · rintro ⟨mem2, hm2, hc2m⟩
          cases hm2
          rcases List.mem_cons.mp hc2m with h | h
          · exact absurd h hc2
          · apply (hmem c2 room2).mp
            cases hrr : rooms room2 with
            | none =>
              rw [hrr] at h
              simp at h
            | some mem0 =>
              rw [hrr] at h
              exact ⟨mem0, rfl, by simpa using h⟩
        · intro hcr2
          obtain ⟨mem0, hm0, hc2m⟩ := (hmem c2 room2).mpr hcr2
          refine ⟨_, rfl, ?_⟩
          rw [hm0]
          exact List.mem_cons_of_mem c (by simpa using hc2m)
    · by_cases hc2 : c2 = c
      · subst hc2
        simp only [if_neg hr2, eq_self_iff_true, if_true]
        rw [mem_slInsert_ne room2 room (cr c2) hr2]
        exact hmem c2 room2
      · simp only [if_neg hr2, if_neg hc2]
        exact hmem c2 room2
  · intro room2 mem2 hm2
    by_cases hr2 : room2 = room
    · subst hr2
      simp only [eq_self_iff_true, if_true] at hm2
      cases hm2
      exact List.cons_ne_nil _ _
    · simp only [if_neg hr2] at hm2
      exact hne room2 mem2 hm2

/-- Leaving without emptying the room preserves the invariant. -/
theorem roomInvF_leaveKeep (rooms : String → Option (List Nat))
    (cr : Nat → List String) (c : Nat) (room : String) (mem : List Nat)
    (h : roomInvF rooms cr) (hrm : rooms room = some mem) (hcm : c ∈ mem)
    (hne1 : ¬ (mem.filter (fun x => x ≠ c)).isEmpty = true) :
    roomInvF
      (fun n => if n = room then some (mem.filter (fun x => x ≠ c)) else rooms n)
      (fun x => if x = c then (cr x).filter (fun r => r ≠ room) else cr x) := by
  obtain ⟨hmem, hner⟩ := h
  constructor
  · intro c2 room2
    by_cases hr2 : room2 = room
    · subst hr2
      by_cases hc2 : c2 = c
      · subst hc2
        simp only [eq_self_iff_true, if_true]
        constructor
        · rintro ⟨mem2, hm2, hcmem⟩
          cases hm2
          simp [List.mem_filter] at hcmem
        · intro hr
          simp [List.mem_filter] at hr
      · simp only [eq_self_iff_true, if_true, if_neg hc2]
        constructor
        · rintro ⟨mem2, hm2, hcmem⟩
          cases hm2
          simp only [List.mem_filter] at hcmem
          exact (hmem c2 room2).mp ⟨mem, hrm, hcmem.1⟩
        · intro hcr2
          obtain ⟨mem0, hm0, hcm2⟩ := (hmem c2 room2).mpr hcr2
          rw [hrm] at hm0
          cases hm0
          refine ⟨_, rfl, ?_⟩
          simp only [List.mem_filter]
          exact ⟨hcm2, by simp [hc2]⟩
    · by_cases hc2 : c2 = c
      · subst hc2
        simp only [if_neg hr2, eq_self_iff_true, if_true]
        constructor
        · rintro ⟨mem2, hm2, hcm2⟩
          have hcr2 := (hmem c2 room2).mp ⟨mem2, hm2, hcm2⟩
          simp only [List.mem_filter]
          exact ⟨hcr2, by simp [hr2]⟩
        · intro hr
          simp only [List.mem_filter] at hr
          exact (hmem c2 room2).mpr hr.1
      · simp only [if_neg hr2, if_neg hc2]
        exact hmem c2 room2
  · intro room2 mem2 hm2
    by_cases hr2 : room2 = room
    · subst hr2
      simp only [eq_self_iff_true, if_true] at hm2
      cases hm2
      intro hnil
      apply hne1
      rw [hnil]
      rfl
    · simp only [if_neg hr2] at hm2
      exact hner room2 mem2 hm2

/-- Leaving as the last member deletes the room and preserves the
invariant. -/
theorem roomInvF_leaveDel (rooms : String → Option (List Nat))
    (cr : Nat → List String) (c : Nat) (room : String) (mem : List Nat)
    (h : roomInvF rooms cr) (hrm : rooms room = some mem) (hcm : c ∈ mem)
    (hEmp : (mem.filter (fun x => x ≠ c)).isEmpty = true) :
    roomInvF (fun n => if n = room then none else rooms n)
      (fun x => if x = c then (cr x).filter (fun r => r ≠ room) else cr x) := by
  obtain ⟨hmem, hner⟩ := h
  rw [List.isEmpty_iff] at hEmp
  constructor
  · intro c2 room2
    by_cases hr2 : room2 = room
    · subst hr2
      simp only [eq_self_iff_true, if_true]
      constructor
      · rintro ⟨mem2, hm2, _⟩
        cases hm2
      · intro hcr2
        by_cases hc2 : c2 = c
        · subst hc2
          simp only [List.mem_filter] at hcr2
          simp at hcr2
        · obtain ⟨mem0, hm0, hcm2⟩ := (hmem c2 room2).mpr (by
            by_cases hc2' : c2 = c
            · exact absurd hc2' hc2
            · simpa [hc2] using hcr2)
          rw [hrm] at hm0
          cases hm0
          have hmem2 : c2 ∈ mem.filter (fun x => x ≠ c) := by
            simp only [List.mem_filter]
            exact ⟨hcm2, by simp [hc2]⟩
          rw [hEmp] at hmem2
          cases hmem2
    · by_cases hc2 : c2 = c
      · subst hc2
        simp only [if_neg hr2, eq_self_iff_true, if_true]
        constructor
        · rintro ⟨mem2, hm2, hcm2⟩
          have hcr2 := (hmem c2 room2).mp ⟨mem2, hm2, hcm2⟩
          simp only [List.mem_filter]
          exact ⟨hcr2, by simp [hr2]⟩
        · intro hr
          simp only [List.mem_filter] at hr
          exact (hmem c2 room2).mpr hr.1
      · simp only [if_neg hr2, if_neg hc2]
        exact hmem c2 room2
  · intro room2 mem2 hm2
    by_cases hr2 : room2 = room
    · subst hr2
      simp only [eq_self_iff_true, if_true] at hm2
      cases hm2
    · simp only [if_neg hr2] at hm2
      exact hner room2 mem2 hm2

theorem broadcast_roomsEq (st1 : HubState) (tr : List SendAction) (room : String)
    (e : Event) : (broadcastToRoom (st1, tr) room e).1.rooms = st1.rooms :=
  (broadcastToRoom_graphEq (st1, tr) room e).1.symm

theorem broadcast_crEq (st1 : HubState) (tr : List SendAction) (room : String)
    (e : Event) : (broadcastToRoom (st1, tr) room e).1.clientRooms = st1.clientRooms :=
  (broadcastToRoom_graphEq (st1, tr) room e).2.1.symm

theorem emitB_roomsEq (acc : HubAcc) (c : Nat) (e : Event) :
    (emitB acc c e).1.rooms = acc.1.rooms := rfl

theorem emitB_crEq (acc : HubAcc) (c : Nat) (e : Event) :
    (emitB acc c e).1.clientRooms = acc.1.clientRooms := rfl

/-- What joinRoom does to the room graph: either an error left everything
unchanged, or the session was added to the (possibly new) room and the
room to its joined set. -/
theorem joinRoomH_graphChar (info : Nat → Ident) (store : Option HubStore)
    (st : HubState) (c : Nat) (room : String) :
    ((∀ n, (joinRoomH info store st c room).1.rooms n = st.rooms n) ∧
     (∀ x, (joinRoomH info store st c room).1.clientRooms x = st.clientRooms x)) ∨
    (c ∉ (st.rooms room).getD [] ∧
     (∀ n, (joinRoomH info store st c room).1.rooms n =
        if n = room then some (c :: (st.rooms room).getD []) else st.rooms n) ∧
     (∀ x, (joinRoomH info store st c room).1.clientRooms x =
        if x = c then slInsert room (st.clientRooms x) else st.clientRooms x)) := by
  unfold joinRoomH
  dsimp only
  split
  · exact Or.inl ⟨fun n => rfl, fun x => rfl⟩
  · split
    · exact Or.inl ⟨fun n => rfl, fun x => rfl⟩
    · rename_i hnm
      refine Or.inr ⟨hnm, ?_, ?_⟩
      · intro n
        cases store with
        | none => simp [broadcast_roomsEq]
        | some sm =>
          dsimp only
          cases sm.getRoomByName room with
          | none => simp [broadcast_roomsEq]
          | some dbRoom =>
            dsimp only
            cases sm.listMessages dbRoom.id with
            | error e => simp [broadcast_roomsEq]
            | ok msgs =>
              dsimp only
              split <;> simp [broadcast_roomsEq, emitB_roomsEq]
      · intro x
        cases store with
        | none => simp [broadcast_crEq]
        | some sm =>
          dsimp only
          cases sm.getRoomByName room with
          | none => simp [broadcast_crEq]
          | some dbRoom =>
            dsimp only
            cases sm.listMessages dbRoom.id with
            | error e => simp [broadcast_crEq]
            | ok msgs =>
              dsimp only
              split <;> simp [broadcast_crEq, emitB_crEq]

/-- What leaveRoom does to the room graph: an error left everything
unchanged, or the session was removed and the room deleted when emptied. -/
theorem leaveRoomH_graphChar (info : Nat → Ident) (st : HubState) (c : Nat)
    (room : String) :
    ((∀ n, (leaveRoomH info st c room).1.rooms n = st.rooms n) ∧
     (∀ x, (leaveRoomH info st c room).1.clientRooms x = st.clientRooms x)) ∨
    (∃ mem, st.rooms room = some mem ∧ c ∈ mem ∧
      (((mem.filter (fun x => x ≠ c)).isEmpty = true ∧
        (∀ n, (leaveRoomH info st c room).1.rooms n =
          if n = room then none else st.rooms n)) ∨
       (¬ (mem.filter (fun x => x ≠ c)).isEmpty = true ∧
        (∀ n, (leaveRoomH info st c room).1.rooms n =
          if n = room then some (mem.filter (fun x => x ≠ c)) else st.rooms n))) ∧
      (∀ x, (leaveRoomH info st c room).1.clientRooms x =
        if x = c then (st.clientRooms x).filter (fun r => r ≠ room)
        else st.clientRooms x)) := by
  unfold leaveRoomH
  dsimp only
  cases hrr : st.rooms room with
  | none => exact Or.inl ⟨fun n => rfl, fun x => rfl⟩
  | some mem =>
    dsimp only
    split
    · rename_i hcm
      refine Or.inr ⟨mem, rfl, hcm, ?_, ?_⟩
      · by_cases hEmp : (mem.filter (fun x => x ≠ c)).isEmpty = true
        · refine Or.inl ⟨hEmp, ?_⟩
          intro n
          rw [if_pos hEmp]
          dsimp only
          by_cases hn : n = room
          · simp only [hn, eq_self_iff_true, if_true]
          · simp only [if_neg hn, broadcast_roomsEq]
        · refine Or.inr ⟨hEmp, ?_⟩
          intro n
          rw [if_neg hEmp]
          simp only [broadcast_roomsEq]
      · intro x
        split
        · simp only [broadcast_crEq]
        · simp only [broadcast_crEq]
    · exact Or.inl ⟨fun n => rfl, fun x => rfl⟩

theorem joinRoomH_roomInv (info : Nat → Ident) (store : Option HubStore)
    (st : HubState) (c : Nat) (room : String) (h : roomInv st) :
    roomInv (joinRoomH info store st c room).1 := by
  rcases joinRoomH_graphChar info store st c room with ⟨h1, h2⟩ | ⟨hnm, h1, h2⟩
  · exact roomInvF_congr (fun n => (h1 n).symm) (fun x => (h2 x).symm) h
  · exact roomInvF_congr (fun n => (h1 n).symm) (fun x => (h2 x).symm)
      (roomInvF_join st.rooms st.clientRooms c room h hnm)

theorem leaveRoomH_roomInv (info : Nat → Ident) (st : HubState) (c : Nat)
    (room : String) (h : roomInv st) : roomInv (leaveRoomH info st c room).1 := by
  rcases leaveRoomH_graphChar info st c room with
    ⟨h1, h2⟩ | ⟨mem, hrm, hcm, hdel | hkeep, h2⟩
  · exact roomInvF_congr (fun n => (h1 n).symm) (fun x => (h2 x).symm) h
  · exact roomInvF_congr (fun n => (hdel.2 n).symm) (fun x => (h2 x).symm)
      (roomInvF_leaveDel st.rooms st.clientRooms c room mem h hrm hcm hdel.1)
  · exact roomInvF_congr (fun n => (hkeep.2 n).symm) (fun x => (h2 x).symm)
      (roomInvF_leaveKeep st.rooms st.clientRooms c room mem h hrm hcm hkeep.1)

theorem sendRoomMessageH_graphEq (info : Nat → Ident) (store : Option HubStore)
    (now : Int) (st : HubState) (c : Nat) (room : String) (msg : Msg) :
    graphEq st (sendRoomMessageH info store now st c room msg).1 := by
  unfold sendRoomMessageH
  dsimp only
  split
  · exact ⟨rfl, rfl, rfl, rfl, rfl⟩
  · split
    · refine graphEq_trans (graphEq_refl st) ?_
      exact broadcastToRoom_graphEq (st, []) room _
    · exact ⟨rfl, rfl, rfl, rfl, rfl⟩

/-- C3 — Every Hub loop step — registration, every command (JoinRoom,
LeaveRoom, SendRoomMessage, all call commands), and session-unregister —
preserves the two room-graph invariants: a session is in a room's member
set iff the room's name is in the session's joined_rooms set, and every
in-memory room has at least one member (rooms are created on first
successful join and deleted when the last member leaves). -/
theorem roomInvPreserved (info : Nat → Ident) (svc : Option CallSvc)
    (store : Option HubStore) (st : HubState) (i : HubIn) (h : roomInv st) :
    roomInv (hubStep info svc store st i) := by
  cases i with
  | register c => exact h
  | unregister c =>
    show roomInv (removeClient info st c)
    unfold removeClient
    split
    · have hfold : ∀ (l : List String) (s : HubState), roomInv s →
          roomInv (l.foldl (fun s2 room => (leaveRoomH info s2 c room).1) s) := by
        intro l
        induction l with
        | nil => exact fun s hs => hs
        | cons r rs ih =>
          intro s hs
          exact ih _ (leaveRoomH_roomInv info s c r hs)
      exact hfold _ st h
    · exact h
  | command c cmd now =>
    cases cmd with
    | joinRoom room => exact joinRoomH_roomInv info store st c room h
    | leaveRoom room => exact leaveRoomH_roomInv info st c room h
    | sendRoomMessage room msg =>
      exact roomInv_of_graphEq (sendRoomMessageH_graphEq info store now st c room msg) h
    | callInvite callType toUserID roomID =>
      exact roomInv_of_graphEq
        (handleCallInviteH_graphEq info svc st c callType toUserID roomID) h
    | callAccept callID =>
      exact roomInv_of_graphEq (handleCallAcceptH_graphEq info svc st c callID) h
    | callReject callID reason =>
      exact roomInv_of_graphEq (handleCallRejectH_graphEq info svc st c callID reason) h
    | callJoin callID =>
      exact roomInv_of_graphEq (handleCallJoinH_graphEq info svc st c callID) h
    | callLeave callID =>
      exact roomInv_of_graphEq (handleCallLeaveH_graphEq info svc st c callID) h
    | callEnd callID =>
      exact roomInv_of_graphEq (handleCallEndH_graphEq info svc st c callID) h

/-- Witness for C3: the invariant holds on the empty Hub and is carried
through a concrete join step. -/
theorem roomInvPreserved_witness :
    roomInv (hubStep infoDup none none hubInit
      (.command 0 (.joinRoom "general") 0)) :=
  roomInvPreserved infoDup none none hubInit (.command 0 (.joinRoom "general") 0)
    (by constructor
        · intro c room
          simp [hubInit]
        · intro room mem hm
          cases hm)

/-! ### Delivery modes (claim C6) -/

/-- Every blocking delivery in a trace targets the given session. -/
def selfBlocks (c : Nat) (tr : List SendAction) : Prop :=
  ∀ a ∈ tr, a.mode = .block → a.target = c

theorem selfBlocks_nil (c : Nat) : selfBlocks c [] := by
  intro a ha
  cases ha

theorem selfBlocks_emitB (c : Nat) (acc : HubAcc) (e : Event)
    (h : selfBlocks c acc.2) : selfBlocks c (emitB acc c e).2 := by
  intro a ha hm
  unfold emitB at ha
  dsimp only at ha
  rcases List.mem_append.mp ha with h1 | h1
  · exact h a h1 hm
  · rw [List.mem_singleton] at h1
    subst h1
    rfl

theorem selfBlocks_emitN (c : Nat) (acc : HubAcc) (t : Nat) (e : Event)
    (h : selfBlocks c acc.2) : selfBlocks c (emitN acc t e).2 := by
  intro a ha hm
  unfold emitN at ha
  dsimp only at ha
  rcases List.mem_append.mp ha with h1 | h1
  · exact h a h1 hm
  · rw [List.mem_singleton] at h1
    subst h1
    cases hm

theorem selfBlocks_sendToUserA (c : Nat) (acc : HubAcc) (uid : Int) (e : Event)
    (h : selfBlocks c acc.2) : selfBlocks c (sendToUserA acc uid e).2 := by
  unfold sendToUserA
  cases acc.1.userIndex uid with
  | none => exact h
  | some c2 => exact selfBlocks_emitN c acc c2 e h

theorem selfBlocks_foldl {α : Type} (c : Nat) (g : HubAcc → α → HubAcc)
    (hg : ∀ acc x, selfBlocks c acc.2 → selfBlocks c (g acc x).2) :
    ∀ (l : List α) (acc : HubAcc), selfBlocks c acc.2 → selfBlocks c (l.foldl g acc).2
  | [], _, h => h
  | x :: xs, acc, h => selfBlocks_foldl c g hg xs (g acc x) (hg acc x h)

theorem selfBlocks_broadcast (c : Nat) (acc : HubAcc) (room : String) (e : Event)
    (h : selfBlocks c acc.2) : selfBlocks c (broadcastToRoom acc room e).2 := by
  unfold broadcastToRoom
  cases acc.1.rooms room with
  | none => exact h
  | some mem =>
    exact selfBlocks_foldl c _ (fun a x hh => selfBlocks_emitN c a x e hh) mem acc h

theorem selfBlocks_sendCallError (c : Nat) (acc : HubAcc) (code msg : String)
    (h : selfBlocks c acc.2) : selfBlocks c (sendCallError acc c code msg).2 :=
  selfBlocks_emitB c acc _ h

theorem joinRoomH_selfBlocks (info : Nat → Ident) (store : Option HubStore)
    (st : HubState) (c : Nat) (room : String) :
    selfBlocks c (joinRoomH info store st c room).2 := by
  unfold joinRoomH
  dsimp only
  split
  · exact selfBlocks_emitB c (st, []) _ (selfBlocks_nil c)
  · split
    · exact selfBlocks_emitB c (st, []) _ (selfBlocks_nil c)
    · cases store with
      | none =>
        refine selfBlocks_broadcast c _ room _ ?_
        exact selfBlocks_nil c
      | some sm =>
        dsimp only
        cases sm.getRoomByName room with
        | none =>
          refine selfBlocks_broadcast c _ room _ ?_
          exact selfBlocks_nil c
        | some dbRoom =>
          dsimp only
          cases sm.listMessages dbRoom.id with
          | error e =>
            refine selfBlocks_broadcast c _ room _ ?_
            exact selfBlocks_nil c
          | ok msgs =>
            dsimp only
            split
            · refine selfBlocks_broadcast c _ room _ ?_
              exact selfBlocks_nil c
            · refine selfBlocks_emitB c _ _ ?_
              refine selfBlocks_broadcast c _ room _ ?_
              exact selfBlocks_nil c

theorem leaveRoomH_selfBlocks (info : Nat → Ident) (st : HubState) (c : Nat)
    (room : String) : selfBlocks c (leaveRoomH info st c room).2 := by
  unfold leaveRoomH
  dsimp only
  cases st.rooms room with
  | none => exact selfBlocks_emitB c (st, []) _ (selfBlocks_nil c)
  | some mem =>
    dsimp only
    split
    · split
      · refine selfBlocks_broadcast c _ room _ ?_
        exact selfBlocks_nil c
      · refine selfBlocks_broadcast c _ room _ ?_
        exact selfBlocks_nil c
    · exact selfBlocks_emitB c (st, []) _ (selfBlocks_nil c)

theorem sendRoomMessageH_selfBlocks (info : Nat → Ident) (store : Option HubStore)
    (now : Int) (st : HubState) (c : Nat) (room : String) (msg : Msg) :
    selfBlocks c (sendRoomMessageH info store now st c room msg).2 := by
  unfold sendRoomMessageH
  dsimp only
  split
  · exact selfBlocks_emitB c (st, []) _ (selfBlocks_nil c)
  · split
    · refine selfBlocks_broadcast c _ room _ ?_
      exact selfBlocks_nil c
    · exact selfBlocks_emitB c (st, []) _ (selfBlocks_nil c)

theorem handleCallInviteH_selfBlocks (info : Nat → Ident) (svc : Option CallSvc)
    (st : HubState) (c : Nat) (callType : String) (toUserID roomID : Int) :
    selfBlocks c (handleCallInviteH info svc st c callType toUserID roomID).2 := by
  unfold handleCallInviteH
  cases svc with
  | none => exact selfBlocks_sendCallError c (st, []) _ _ (selfBlocks_nil c)
  | some m =>
    dsimp only
    split
    · exact selfBlocks_sendCallError c (st, []) _ _ (selfBlocks_nil c)
    · split
      · cases m.createDirectCall (info c).userId toUserID with
        | error e => exact selfBlocks_sendCallError c (st, []) _ _ (selfBlocks_nil c)
        | ok call =>
          refine selfBlocks_sendToUserA c _ _ _ ?_
          exact selfBlocks_emitB c (st, []) _ (selfBlocks_nil c)
      · split
        · cases m.createRoomCall (info c).userId roomID with
          | error e => exact selfBlocks_sendCallError c (st, []) _ _ (selfBlocks_nil c)
          | ok call =>
            dsimp only
            cases m.listRoomMembers roomID with
            | error e => exact selfBlocks_sendCallError c (st, []) _ _ (selfBlocks_nil c)
            | ok memberIDs =>
              dsimp only
              refine selfBlocks_foldl c _ (fun a x hh => ?_) _ _ (selfBlocks_nil c)
              split
              · exact selfBlocks_sendToUserA c a _ _ hh
              · exact hh
        · exact selfBlocks_nil c

theorem handleCallAcceptH_selfBlocks (info : Nat → Ident) (svc : Option CallSvc)
    (st : HubState) (c : Nat) (callID : String) :
    selfBlocks c (handleCallAcceptH info svc st c callID).2 := by
  unfold handleCallAcceptH
  cases svc with
  | none => exact selfBlocks_sendCallError c (st, []) _ _ (selfBlocks_nil c)
  | some m =>
    dsimp only
    split
    · exact selfBlocks_sendCallError c (st, []) _ _ (selfBlocks_nil c)
    · cases m.getJoinInfo callID (info c).userId with
      | error e => exact selfBlocks_sendCallError c (st, []) _ _ (selfBlocks_nil c)
      | ok ji =>
        dsimp only
        cases m.getCall callID with
        | error e => exact selfBlocks_sendCallError c (st, []) _ _ (selfBlocks_nil c)
        | ok call =>
          dsimp only
          cases m.getJoinInfo callID call.initiatorUserID with
          | ok ji2 =>
            dsimp only
            refine selfBlocks_sendToUserA c _ _ _ ?_
            refine selfBlocks_sendToUserA c _ _ _ ?_
            exact selfBlocks_emitB c (st, []) _ (selfBlocks_nil c)
          | error e =>
            dsimp only
            refine selfBlocks_sendToUserA c _ _ _ ?_
            exact selfBlocks_emitB c (st, []) _ (selfBlocks_nil c)

theorem handleCallRejectH_selfBlocks (info : Nat → Ident) (svc : Option CallSvc)
    (st : HubState) (c : Nat) (callID reason : String) :
    selfBlocks c (handleCallRejectH info svc st c callID reason).2 := by
  unfold handleCallRejectH
  cases svc with
  | none => exact selfBlocks_sendCallError c (st, []) _ _ (selfBlocks_nil c)
  | some m =>
    dsimp only
    split
    · exact selfBlocks_sendCallError c (st, []) _ _ (selfBlocks_nil c)
    · cases m.getCall callID with
      | error e => exact selfBlocks_sendCallError c (st, []) _ _ (selfBlocks_nil c)
      | ok call =>
        dsimp only
        cases m.rejectCall callID (info c).userId reason with
        | error e => exact selfBlocks_sendCallError c (st, []) _ _ (selfBlocks_nil c)
        | ok u =>
          dsimp only
          refine selfBlocks_sendToUserA c _ _ _ ?_
          refine selfBlocks_sendToUserA c _ _ _ ?_
          exact selfBlocks_nil c

theorem handleCallJoinH_selfBlocks (info : Nat → Ident) (svc : Option CallSvc)
    (st : HubState) (c : Nat) (callID : String) :
    selfBlocks c (handleCallJoinH info svc st c callID).2 := by
  unfold handleCallJoinH
  cases svc with
  | none => exact selfBlocks_sendCallError c (st, []) _ _ (selfBlocks_nil c)
  | some m =>
    dsimp only
    split
    · exact selfBlocks_sendCallError c (st, []) _ _ (selfBlocks_nil c)
    · cases m.getJoinInfo callID (info c).userId with
      | error e => exact selfBlocks_sendCallError c (st, []) _ _ (selfBlocks_nil c)
      | ok ji => exact selfBlocks_emitB c (st, []) _ (selfBlocks_nil c)

theorem handleCallLeaveH_selfBlocks (info : Nat → Ident) (svc : Option CallSvc)
    (st : HubState) (c : Nat) (callID : String) :
    selfBlocks c (handleCallLeaveH info svc st c callID).2 := by
  unfold handleCallLeaveH
  cases svc with
  | none => exact selfBlocks_sendCallError c (st, []) _ _ (selfBlocks_nil c)
  | some m =>
    dsimp only
    split
    · exact selfBlocks_sendCallError c (st, []) _ _ (selfBlocks_nil c)
    · cases m.leaveCall callID (info c).userId with
      | error e => exact selfBlocks_sendCallError c (st, []) _ _ (selfBlocks_nil c)
      | ok u => exact selfBlocks_nil c

theorem handleCallEndH_selfBlocks (info : Nat → Ident) (svc : Option CallSvc)
    (st : HubState) (c : Nat) (callID : String) :
    selfBlocks c (handleCallEndH info svc st c callID).2 := by
  unfold handleCallEndH
  cases svc with
  | none => exact selfBlocks_sendCallError c (st, []) _ _ (selfBlocks_nil c)
  | some m =>
    dsimp only
    split
    · exact selfBlocks_sendCallError c (st, []) _ _ (selfBlocks_nil c)
    · cases m.getCall callID with
      | error e => exact selfBlocks_sendCallError c (st, []) _ _ (selfBlocks_nil c)
      | ok call =>
        dsimp only
        cases m.endCall callID (info c).userId with
        | error e => exact selfBlocks_sendCallError c (st, []) _ _ (selfBlocks_nil c)
        | ok u =>
          dsimp only
          split
          · refine selfBlocks_sendToUserA c _ _ _ ?_
            exact selfBlocks_nil c
          · exact selfBlocks_nil c

/-- A Hub state in which session 0's outbox is full (8 queued events). -/
def stFull : HubState :=
  { hubInit with
      outbox := fun x =>
        if x = 0 then List.replicate 8 (.userJoined "r" "u") else [] }

/-- Counterexample to C6: processing a call invite for session 0 — whose
outbox already holds outboxCap = 8 events — emits the `calls_disabled`
Error event through a plain channel send: the event is enqueued (the
outbox grows to 9), not dropped, and the trace records a blocking
delivery, so the Hub loop can stall on this full outbox rather than drop
the event. -/
theorem hubBlockingDelivery :
    (stFull.outbox 0).length = outboxCap ∧
    ((handleCommand infoDup none none 0 stFull 0
        (.callInvite "direct" 2 0)).1.outbox 0).length = 9 ∧
    (handleCommand infoDup none none 0 stFull 0 (.callInvite "direct" 2 0)).2 =
      [⟨.block, 0, .errorEvent "calls_disabled" "calls are not enabled" ""⟩] := by
  refine ⟨?_, ?_, ?_⟩ <;> rfl

/-- C6 amended — Room broadcasts (Room.Broadcast) and user-targeted sends
(sendToUser) are non-blocking: a full recipient outbox drops the event.
But unicast events to the session whose command is being processed —
Error, History, CallRinging and CallJoinInfo — use plain channel sends,
so every blocking delivery produced while processing a command targets
that command's own session; only the commanding session's full outbox can
block the Hub loop, never a different slow consumer's. -/
theorem blockingSendsTargetSelf (info : Nat → Ident) (svc : Option CallSvc)
    (store : Option HubStore) (now : Int) (st : HubState) (c : Nat)
    (cmd : Command) :
    ∀ a ∈ (handleCommand info svc store now st c cmd).2,
      a.mode = .block → a.target = c := by
  cases cmd with
  | joinRoom room => exact joinRoomH_selfBlocks info store st c room
  | leaveRoom room => exact leaveRoomH_selfBlocks info st c room
  | sendRoomMessage room msg => exact sendRoomMessageH_selfBlocks info store now st c room msg
  | callInvite callType toUserID roomID =>
    exact handleCallInviteH_selfBlocks info svc st c callType toUserID roomID
  | callAccept callID => exact handleCallAcceptH_selfBlocks info svc st c callID
  | callReject callID reason => exact handleCallRejectH_selfBlocks info svc st c callID reason
  | callJoin callID => exact handleCallJoinH_selfBlocks info svc st c callID
  | callLeave callID => exact handleCallLeaveH_selfBlocks info svc st c callID
  | callEnd callID => exact handleCallEndH_selfBlocks info svc st c callID

/-- Witness for C6's amended theorem: the one blocking delivery of a
rejected call invite targets the commanding session 0. -/
theorem blockingSendsTargetSelf_witness :
    SendAction.target ⟨.block, 0, .errorEvent "calls_disabled"
      "calls are not enabled" ""⟩ = 0 :=
  blockingSendsTargetSelf infoDup none none 0 stFull 0 (.callInvite "direct" 2 0)
    ⟨.block, 0, .errorEvent "calls_disabled" "calls are not enabled" ""⟩
    (by decide) rfl

/-! ### Outbox effects of the delivery primitives (claims C1, C4) -/

theorem emitB_outbox_self (acc : HubAcc) (c : Nat) (e : Event) :
    (emitB acc c e).1.outbox c = acc.1.outbox c ++ [e] := by
  unfold emitB
  dsimp only
  rw [if_pos rfl]

theorem emitB_outbox_other (acc : HubAcc) (c : Nat) (e : Event) (x : Nat)
    (hx : x ≠ c) : (emitB acc c e).1.outbox x = acc.1.outbox x := by
  unfold emitB
  dsimp only
  rw [if_neg hx]

theorem emitN_outbox_self (acc : HubAcc) (t : Nat) (e : Event) :
    (emitN acc t e).1.outbox t =
      if (acc.1.outbox t).length < outboxCap then acc.1.outbox t ++ [e]
      else acc.1.outbox t := by
  unfold emitN
  dsimp only
  split
  · dsimp only
    rw [if_pos rfl]
  · rfl

theorem emitN_outbox_other (acc : HubAcc) (t : Nat) (e : Event) (x : Nat)
    (hx : x ≠ t) : (emitN acc t e).1.outbox x = acc.1.outbox x := by
  unfold emitN
  dsimp only
  split
  · dsimp only
    rw [if_neg hx]
  · rfl

/-- Effect of a room broadcast on each outbox: members with room get the
event appended, members with a full outbox and non-members are
unchanged. -/
theorem foldl_emitN_outbox (e : Event) (mem : List Nat) (hnodup : mem.Nodup)
    (acc : HubAcc) :
    (∀ x ∈ mem, (mem.foldl (fun a y => emitN a y e) acc).1.outbox x =
      if (acc.1.outbox x).length < outboxCap then acc.1.outbox x ++ [e]
      else acc.1.outbox x) ∧
    (∀ x, x ∉ mem →
      (mem.foldl (fun a y => emitN a y e) acc).1.outbox x = acc.1.outbox x) := by
  induction mem generalizing acc with
  | nil =>
    exact ⟨fun x hx => absurd hx (List.not_mem_nil x), fun x _ => rfl⟩
  | cons y ys ih =>
    have hyn : y ∉ ys := (List.nodup_cons.mp hnodup).1
    have hnd : ys.Nodup := (List.nodup_cons.mp hnodup).2
    constructor
    · intro x hx
      rw [List.foldl_cons]
      rcases List.mem_cons.mp hx with hxy | hx2
      · subst hxy
        rw [(ih hnd (emitN acc x e)).2 x hyn]
        exact emitN_outbox_self acc x e
      · have hxy : x ≠ y := fun hh => hyn (hh ▸ hx2)
        rw [(ih hnd (emitN acc y e)).1 x hx2,
          emitN_outbox_other acc y e x hxy]
    · intro x hx
      rw [List.foldl_cons,
        (ih hnd (emitN acc y e)).2 x (fun h2 => hx (List.mem_cons_of_mem y h2)),
        emitN_outbox_other acc y e x (fun hh => hx (hh ▸ List.mem_cons_self y ys))]

/-- C4 — For every SendRoomMessage processed for a session that is a
member of the room (the Hub checks the session's joined_rooms set): the
broadcast message has `created_at` stamped with the current time exactly
when zero and `from` set to the session's username exactly when empty;
it is persisted — and then carries the store-assigned id — iff the sender
is a non-guest with user_id > 0, a persisted room with that name exists,
and the save succeeds; in every other case (guest sender, non-positive
user id, no persisted room, or save failure) it is broadcast with id = 0;
and the Message event is delivered to every member of the room, the
sender included, subject only to the non-blocking outbox-drop rule. -/
theorem sendRoomMessagePersistence (info : Nat → Ident) (sm : HubStore) (now : Int)
    (st : HubState) (c : Nat) (room : String) (msg : Msg) (mem : List Nat)
    (hne : room ≠ "") (hjoined : room ∈ st.clientRooms c)
    (hmem : st.rooms room = some mem) (hnodup : mem.Nodup) (hid : msg.id = 0) :
    ∃ bmsg : Msg,
      (∀ x ∈ mem, (st.outbox x).length < outboxCap →
        (sendRoomMessageH info (some sm) now st c room msg).1.outbox x =
          st.outbox x ++ [.roomMessage room bmsg]) ∧
      (∀ x ∈ mem, ¬ (st.outbox x).length < outboxCap →
        (sendRoomMessageH info (some sm) now st c room msg).1.outbox x =
          st.outbox x) ∧
      bmsg.room = room ∧
      bmsg.text = msg.text ∧
      bmsg.createdAt = (if msg.createdAt = 0 then now else msg.createdAt) ∧
      bmsg.fromUser = (if msg.fromUser = "" then (info c).name else msg.fromUser) ∧
      ((info c).isGuest = false → 0 < (info c).userId →
        ∀ dbRoom, sm.getRoomByName room = some dbRoom →
        ∀ i, sm.saveMessage dbRoom.id (info c).userId msg.text
            (if msg.createdAt = 0 then now else msg.createdAt) = some i →
          bmsg.id = i) ∧
      (((info c).isGuest = true ∨ ¬ 0 < (info c).userId ∨
        sm.getRoomByName room = none ∨
        (∃ dbRoom, sm.getRoomByName room = some dbRoom ∧
          sm.saveMessage dbRoom.id (info c).userId msg.text
            (if msg.createdAt = 0 then now else msg.createdAt) = none)) →
        bmsg.id = 0) := by
  have hbroadcast : ∀ bm : Msg,
      (∀ x ∈ mem, (st.outbox x).length < outboxCap →
        (broadcastToRoom (st, []) room (.roomMessage room bm)).1.outbox x =
          st.outbox x ++ [.roomMessage room bm]) ∧
      (∀ x ∈ mem, ¬ (st.outbox x).length < outboxCap →
        (broadcastToRoom (st, []) room (.roomMessage room bm)).1.outbox x =
          st.outbox x) := by
    intro bm
    have hfl := foldl_emitN_outbox (.roomMessage room bm) mem hnodup (st, [])
    constructor
    · intro x hx hlen
      unfold broadcastToRoom
      dsimp only
      rw [hmem]
      dsimp only
      rw [hfl.1 x hx]
      simp [hlen]
    · intro x hx hlen
      unfold broadcastToRoom
      dsimp only
      rw [hmem]
      dsimp only
      rw [hfl.1 x hx]
      simp [hlen]
  have hred : sendRoomMessageH info (some sm) now st c room msg =
      broadcastToRoom (st, []) room (.roomMessage room
        (if (info c).isGuest = false ∧ 0 < (info c).userId then
          match sm.getRoomByName room with
          | none =>
            { msg with
                room := room,
                createdAt := if msg.createdAt = 0 then now else msg.createdAt,
                fromUser := if msg.fromUser = "" then (info c).name else msg.fromUser }
          | some dbRoom =>
            match sm.saveMessage dbRoom.id (info c).userId msg.text
                (if msg.createdAt = 0 then now else msg.createdAt) with
            | none =>
              { msg with
                  room := room,
                  createdAt := if msg.createdAt = 0 then now else msg.createdAt,
                  fromUser := if msg.fromUser = "" then (info c).name else msg.fromUser }
            | some newId =>
              { msg with
                  id := newId,
                  room := room,
                  createdAt := if msg.createdAt = 0 then now else msg.createdAt,
                  fromUser := if msg.fromUser = "" then (info c).name else msg.fromUser }
        else
          { msg with
              room := room,
              createdAt := if msg.createdAt = 0 then now else msg.createdAt,
              fromUser := if msg.fromUser = "" then (info c).name else msg.fromUser })) := by
    unfold sendRoomMessageH
    rw [if_neg hne, if_pos hjoined]
  rw [hred]
  refine ⟨_, (hbroadcast _).1, (hbroadcast _).2, ?_, ?_, ?_, ?_, ?_, ?_⟩
  · repeat' split
    all_goals rfl
  · repeat' split
    all_goals rfl
  · repeat' split
    all_goals rfl
  · repeat' split
    all_goals rfl
  · intro hgf hpos dbRoom hdb i hsave
    rw [if_pos ⟨hgf, hpos⟩, hdb]
    dsimp only
    rw [hsave]
  · intro hdisj
    rcases hdisj with hgu | hnp | hln | ⟨dbRoom, hdb, hsn⟩
    · have hng : ¬ ((info c).isGuest = false ∧ 0 < (info c).userId) := by
        rintro ⟨h1, _⟩
        rw [hgu] at h1
        cases h1
      rw [if_neg hng]
      exact hid
    · have hng : ¬ ((info c).isGuest = false ∧ 0 < (info c).userId) := by
        rintro ⟨_, h2⟩
        exact hnp h2
      rw [if_neg hng]
      exact hid
    · by_cases hg : (info c).isGuest = false ∧ 0 < (info c).userId
      · rw [if_pos hg, hln]
        exact hid
      · rw [if_neg hg]
        exact hid
    · by_cases hg : (info c).isGuest = false ∧ 0 < (info c).userId
      · rw [if_pos hg, hdb]
        dsimp only
        rw [hsn]
        exact hid
      · rw [if_neg hg]
        exact hid

/-- A non-guest identity environment for exercising the send path. -/
def c4Info : Nat → Ident := fun _ => ⟨5, "alice", false⟩

/-- A store with one persisted room named "r" whose saves assign id 42. -/
def c4Sm : HubStore :=
  ⟨fun r => if r = "r" then some ⟨1, "public"⟩ else none,
   fun _ => .ok [], fun _ => none, fun _ _ _ _ => some 42⟩

/-- A hub state with the single session 0 joined to room "r". -/
def c4St : HubState :=
  { hubInit with
      clients := [0],
      rooms := fun r => if r = "r" then some [0] else none,
      clientRooms := fun x => if x = 0 then ["r"] else [] }

/-- An inbound message with zero id, empty from and zero created_at. -/
def c4Msg : Msg := ⟨0, "", "", "hi", 0⟩

theorem sendRoomMessagePersistence_witness :
    ("r" : String) ≠ "" ∧ "r" ∈ c4St.clientRooms 0 ∧ c4St.rooms "r" = some [0] ∧
    ([0] : List Nat).Nodup ∧ c4Msg.id = 0 ∧
    ∃ bmsg : Msg,
      (∀ x ∈ ([0] : List Nat), (c4St.outbox x).length < outboxCap →
        (sendRoomMessageH c4Info (some c4Sm) 100 c4St 0 "r" c4Msg).1.outbox x =
          c4St.outbox x ++ [.roomMessage "r" bmsg]) ∧
      (∀ x ∈ ([0] : List Nat), ¬ (c4St.outbox x).length < outboxCap →
        (sendRoomMessageH c4Info (some c4Sm) 100 c4St 0 "r" c4Msg).1.outbox x =
          c4St.outbox x) ∧
      bmsg.room = "r" ∧
      bmsg.text = c4Msg.text ∧
      bmsg.createdAt = (if c4Msg.createdAt = 0 then 100 else c4Msg.createdAt) ∧
      bmsg.fromUser = (if c4Msg.fromUser = "" then (c4Info 0).name else c4Msg.fromUser) ∧
      ((c4Info 0).isGuest = false → 0 < (c4Info 0).userId →
        ∀ dbRoom, c4Sm.getRoomByName "r" = some dbRoom →
        ∀ i, c4Sm.saveMessage dbRoom.id (c4Info 0).userId c4Msg.text
            (if c4Msg.createdAt = 0 then 100 else c4Msg.createdAt) = some i →
          bmsg.id = i) ∧
      (((c4Info 0).isGuest = true ∨ ¬ 0 < (c4Info 0).userId ∨
        c4Sm.getRoomByName "r" = none ∨
        (∃ dbRoom, c4Sm.getRoomByName "r" = some dbRoom ∧
          c4Sm.saveMessage dbRoom.id (c4Info 0).userId c4Msg.text
            (if c4Msg.createdAt = 0 then 100 else c4Msg.createdAt) = none)) →
        bmsg.id = 0) :=
  ⟨by decide, by decide, by decide, by decide, rfl,
   sendRoomMessagePersistence c4Info c4Sm 100 c4St 0 "r" c4Msg [0]
     (by decide) (by decide) (by decide) (by decide) rfl⟩

/-- The call row the invite path creates. -/
def c1Call : HubCall := ⟨"call-1", 5, 100⟩

/-- A call service whose direct-call creation succeeds with `c1Call` and
whose user lookup resolves the target's username. -/
def c1Svc : CallSvc :=
  ⟨fun _ _ => .ok c1Call, fun _ _ => .error "no", fun _ => .error "no",
   fun _ _ => .error "no", fun _ _ => .error "no", fun _ _ _ => .error "no",
   fun _ _ => .error "no", fun _ => .ok "bob", fun _ => .error "no",
   fun _ => .error "no"⟩

/-- A hub state where the target user 7 is connected as session 1. -/
def c1St : HubState :=
  { hubInit with
      clients := [0, 1],
      userIndex := fun u => if u = 7 then some 1 else none }

/-- C1 — A CallInvite with call_type = direct from a non-guest session
with user_id > 0, when the call service is enabled and CreateDirectCall
succeeds: the Hub queues CallRinging (with the resolved target username,
"unknown" on lookup failure) on the initiator's outbox, and delivers
CallIncoming to the target user's session found through the user_id →
session index — enqueued when that outbox has room, dropped when full. -/
theorem callInviteDirectDelivery (info : Nat → Ident) (m : CallSvc) (st : HubState)
    (c : Nat) (toUserID roomID : Int) (call : HubCall) (tc : Nat)
    (hg : (info c).isGuest = false) (hpos : 0 < (info c).userId)
    (hcreate : m.createDirectCall (info c).userId toUserID = .ok call)
    (hidx : st.userIndex toUserID = some tc) (htc : tc ≠ c) :
    (handleCallInviteH info (some m) st c "direct" toUserID roomID).1.outbox c =
      st.outbox c ++ [.callRinging call.id toUserID
        (match m.getTargetUser toUserID with | .ok u => u | .error _ => "unknown")] ∧
    ((st.outbox tc).length < outboxCap →
      (handleCallInviteH info (some m) st c "direct" toUserID roomID).1.outbox tc =
        st.outbox tc ++ [.callIncoming call.id "direct" (info c).userId
          (info c).name 0 "" call.createdAt]) ∧
    (¬ (st.outbox tc).length < outboxCap →
      (handleCallInviteH info (some m) st c "direct" toUserID roomID).1.outbox tc =
        st.outbox tc) := by
  have hguard : ¬ ((info c).isGuest = true ∨ (info c).userId = 0) := by
    rintro (h1 | h2)
    · rw [hg] at h1
      cases h1
    · rw [h2] at hpos
      exact lt_irrefl 0 hpos
  have hred : handleCallInviteH info (some m) st c "direct" toUserID roomID =
      sendToUserA
        (emitB (st, []) c (.callRinging call.id toUserID
          (match m.getTargetUser toUserID with | .ok u => u | .error _ => "unknown")))
        toUserID
        (.callIncoming call.id "direct" (info c).userId (info c).name 0 ""
          call.createdAt) := by
    unfold handleCallInviteH
    dsimp only
    rw [if_neg hguard, if_pos rfl, hcreate]
  rw [hred]
  have hsend : sendToUserA
      (emitB (st, []) c (.callRinging call.id toUserID
        (match m.getTargetUser toUserID with | .ok u => u | .error _ => "unknown")))
      toUserID
      (.callIncoming call.id "direct" (info c).userId (info c).name 0 ""
        call.createdAt) =
      emitN
        (emitB (st, []) c (.callRinging call.id toUserID
          (match m.getTargetUser toUserID with | .ok u => u | .error _ => "unknown")))
        tc
        (.callIncoming call.id "direct" (info c).userId (info c).name 0 ""
          call.createdAt) := by
    unfold sendToUserA
    dsimp only [emitB]
    rw [hidx]
  rw [hsend]
  refine ⟨?_, ?_, ?_⟩
  · rw [emitN_outbox_other _ _ _ _ (Ne.symm htc), emitB_outbox_self]
  · intro hcap
    rw [emitN_outbox_self, emitB_outbox_other _ _ _ _ htc]
    simp [hcap]
  · intro hcap
    rw [emitN_outbox_self, emitB_outbox_other _ _ _ _ htc]
    simp [hcap]

theorem callInviteDirectDelivery_witness :
    (c4Info 0).isGuest = false ∧ 0 < (c4Info 0).userId ∧
    c1Svc.createDirectCall (c4Info 0).userId 7 = .ok c1Call ∧
    c1St.userIndex 7 = some 1 ∧ (1 : Nat) ≠ 0 ∧
    ((handleCallInviteH c4Info (some c1Svc) c1St 0 "direct" 7 0).1.outbox 0 =
      c1St.outbox 0 ++ [.callRinging c1Call.id 7
        (match c1Svc.getTargetUser 7 with | .ok u => u | .error _ => "unknown")] ∧
     ((c1St.outbox 1).length < outboxCap →
       (handleCallInviteH c4Info (some c1Svc) c1St 0 "direct" 7 0).1.outbox 1 =
         c1St.outbox 1 ++ [.callIncoming c1Call.id "direct" (c4Info 0).userId
           (c4Info 0).name 0 "" c1Call.createdAt]) ∧
     (¬ (c1St.outbox 1).length < outboxCap →
       (handleCallInviteH c4Info (some c1Svc) c1St 0 "direct" 7 0).1.outbox 1 =
         c1St.outbox 1)) :=
  ⟨rfl, by decide, rfl, by decide, by decide,
   callInviteDirectDelivery c4Info c1Svc c1St 0 7 0 c1Call 1 rfl (by decide) rfl
     (by decide) (by decide)⟩

end WireChat
